import Mathlib

/-!
Verification of the promptkit prompt-template tool (`pk/render.py`, `pk/doctor.py`)
against its natural-language specification, via a shallow embedding in Lean 4.

Python values are embedded as `PyVal`; Python dicts as insertion-ordered
association lists; exceptions as `Except PyErr`.  External libraries
(Jinja2, jsonschema, PyYAML, hashlib) are either implemented here (JSON
parsing, SHA-256), modelled from the spec (the strict templating engine),
or treated as oracles threaded through the doctor (schema validation).
-/

set_option autoImplicit false

namespace Promptkit

/-- Python values as they flow through this program.  Floats are kept as the
literal text accepted by the float parser: IEEE-754 semantics are out of
scope, and no code path of this program computes with a float value. -/
inductive PyVal where
  | none
  | bool (b : Bool)
  | int (n : Int)
  | float (lit : String)
  | str (s : String)
  | list (xs : List PyVal)
  | dict (kvs : List (String × PyVal))
deriving Repr

/-- Python exceptions, partitioned by what the doctor catches:
`template` covers `TemplateError` and all its subclasses
(`TemplateNotFoundError`, `PresetNotFoundError`, `SchemaValidationError`
with its `errors` payload, `RenderError`); `typeErr` covers everything
outside that hierarchy (`TypeError`, `AttributeError`, ...), which an
`except TemplateError` block does not stop. -/
inductive PyErr where
  | template (msg : String) (errors : List String)
  | typeErr (msg : String)
deriving Repr

/-- Lookup in an insertion-ordered association list (Python dict read). -/
def dlookup {α : Type} : List (String × α) → String → Option α
  | [], _ => Option.none
  | (k', v) :: rest, k => if k' = k then some v else dlookup rest k

/-- Python dicts are embedded as insertion-ordered association lists with
distinct keys. -/
abbrev Dict := List (String × PyVal)

/-- Python `d[k] = v`: overwrite in place if the key exists, else append. -/
def dinsert (d : Dict) (k : String) (v : PyVal) : Dict :=
  match d with
  | [] => [(k, v)]
  | (k', v') :: rest => if k' = k then (k', v) :: rest else (k', v') :: dinsert rest k v

/-- Python `d.update(e)` for a dict argument `e`. -/
def dupdate (d : Dict) (e : Dict) : Dict :=
  e.foldl (fun acc kv => dinsert acc kv.1 kv.2) d

/-- Python truthiness.  A float is falsy exactly when it denotes zero; for
the literal representation used here, that is when the mantissa has no
nonzero digit. -/
def pyTruthy : PyVal → Bool
  | .none => false
  | .bool b => b
  | .int n => n != 0
  | .float lit => lit.data.any (fun c => c.isDigit && c ≠ '0')
  | .str s => s ≠ ""
  | .list xs => !xs.isEmpty
  | .dict kvs => !kvs.isEmpty

/-! ## Character and string utilities (CPython semantics, ASCII subset) -/

/-- The characters `str.strip()` / `str.rstrip()` remove (ASCII whitespace). -/
def pyIsSpace (c : Char) : Bool :=
  c = ' ' || c = '\t' || c = '\n' || c = '\r' || c = '\x0b' || c = '\x0c'

/-- `str.lstrip()` on a character list. -/
def lstripL (s : List Char) : List Char := s.dropWhile pyIsSpace

/-- `str.rstrip()` on a character list. -/
def rstripL (s : List Char) : List Char := ((s.reverse).dropWhile pyIsSpace).reverse

/-- `str.strip()` on a character list. -/
def pyStrip (s : List Char) : List Char := rstripL (lstripL s)

/-- `str.lower()` on a character list (ASCII). -/
def toLowerL (s : List Char) : List Char := s.map Char.toLower

/-- Split at the first occurrence of `sep`; `Option.none` when `sep` is absent.
`some (a, b)` models Python `s.split(sep, 1) == [a, b]` (and `sep in s`). -/
def splitOnce (sep : Char) : List Char → Option (List Char × List Char)
  | [] => Option.none
  | c :: rest =>
    if c = sep then some ([], rest)
    else (splitOnce sep rest).map (fun pr => (c :: pr.1, pr.2))

/-- Does `s` start with `pat`? -/
def startsWithL : List Char → List Char → Bool
  | [], _ => true
  | _ :: _, [] => false
  | p :: ps, c :: cs => p = c && startsWithL ps cs

/-- Python `pat in s` substring test. -/
def containsSub (pat : List Char) : List Char → Bool
  | [] => pat.isEmpty
  | s@(_ :: cs) => startsWithL pat s || containsSub pat cs

/-- Opening curly brace (written by code to keep it out of literals). -/
def lbrace : Char := Char.ofNat 123

/-- Closing curly brace. -/
def rbrace : Char := Char.ofNat 125

/-- Single-quote character. -/
def squote : Char := Char.ofNat 39

/-! ## CPython numeric literal acceptance

`int()` and `float()` accept an optionally signed literal with underscores
between digits, after stripping surrounding whitespace.  The model is
restricted to ASCII digits (CPython additionally accepts Unicode decimal
digits, which never occur in this program's inputs). -/

/-- A nonempty ASCII digit run with single underscores strictly between
digits, as in CPython numeric literals. -/
def digitsUS : List Char → Bool
  | [] => false
  | c :: rest => c.isDigit && digitsUSTail rest
where
  digitsUSTail : List Char → Bool
  | [] => true
  | '_' :: c :: rest => c.isDigit && digitsUSTail rest
  | ['_'] => false
  | c :: rest => c.isDigit && digitsUSTail rest

/-- Numeric value of a digit run, ignoring underscores. -/
def digitsVal (s : List Char) : Nat :=
  s.foldl (fun acc c => if c = '_' then acc else acc * 10 + (c.toNat - '0'.toNat)) 0

/-- Strip one optional leading sign; returns (negative?, rest). -/
def signSplit : List Char → Bool × List Char
  | '+' :: rest => (false, rest)
  | '-' :: rest => (true, rest)
  | s => (false, s)

/-- CPython `int(value)` on a string: `some n` on success, `Option.none`
when a `ValueError` would be raised. -/
def pyIntParse (s : List Char) : Option Int :=
  let t := pyStrip s
  let (neg, body) := signSplit t
  if digitsUS body then
    let v : Int := Int.ofNat (digitsVal body)
    some (if neg then -v else v)
  else Option.none

/-- Mantissa acceptance for `float()`: `digits [. [digits]]` or `. digits`. -/
def floatMantissa (t : List Char) : Bool :=
  match splitOnce '.' t with
  | Option.none => digitsUS t
  | some (a, b) =>
    (a.isEmpty || digitsUS a) && (b.isEmpty || digitsUS b) && !(a.isEmpty && b.isEmpty)

/-- Exponent acceptance for `float()`: optionally signed digit run. -/
def floatExponent (t : List Char) : Bool :=
  digitsUS (signSplit t).2

/-- CPython `float(value)` acceptance on a string (lower-cased body):
`inf`, `infinity`, `nan`, or `mantissa [e exponent]`. -/
def pyFloatOk (s : List Char) : Bool :=
  let t := toLowerL (pyStrip s)
  let (_, body) := signSplit t
  body = "inf".data || body = "infinity".data || body = "nan".data ||
    (match splitOnce 'e' body with
     | Option.none => floatMantissa body
     | some (m, ex) => floatMantissa m && floatExponent ex)

/-! ## `json.loads` (CPython `json` module)

A recursive-descent parser for the JSON accepted by `json.loads`:
RFC 8259 values plus the CPython extensions `NaN` / `Infinity` /
`-Infinity`.  Numbers with a fraction or exponent become floats, others
ints.  Duplicate object keys follow dict semantics (last value wins). -/

/-- JSON structural whitespace. -/
def jsonWs (c : Char) : Bool := c = ' ' || c = '\t' || c = '\n' || c = '\r'

/-- Skip JSON whitespace. -/
def skipWs (s : List Char) : List Char := s.dropWhile jsonWs

/-- Value of one hex digit. -/
def hexVal (c : Char) : Option Nat :=
  let n := c.toNat
  if 48 ≤ n ∧ n ≤ 57 then some (n - 48)
  else if 97 ≤ n ∧ n ≤ 102 then some (n - 87)
  else if 65 ≤ n ∧ n ≤ 70 then some (n - 55)
  else Option.none

/-- Body of a JSON string after the opening quote: returns the decoded
characters and the remaining input.  Surrogate pairs in `\u` escapes are
combined; a lone surrogate (which CPython keeps as-is) is modelled as NUL
since Lean characters are Unicode scalar values. -/
def jsonStringBody : Nat → List Char → List Char → Option (List Char × List Char)
  | 0, _, _ => Option.none
  | Nat.succ _, [], _ => Option.none
  | Nat.succ _, '"' :: rest, acc => some (acc.reverse, rest)
  | Nat.succ fuel, '\\' :: 'u' :: h1 :: h2 :: h3 :: h4 :: '\\' :: 'u' :: g1 :: g2 :: g3 :: g4 :: rest, acc =>
    match hexVal h1, hexVal h2, hexVal h3, hexVal h4 with
    | some a, some b, some c, some d =>
      let n := ((a * 16 + b) * 16 + c) * 16 + d
      if 0xD800 ≤ n && n < 0xDC00 then
        match hexVal g1, hexVal g2, hexVal g3, hexVal g4 with
        | some a', some b', some c', some d' =>
          let m := ((a' * 16 + b') * 16 + c') * 16 + d'
          if 0xDC00 ≤ m && m < 0xE000 then
            jsonStringBody fuel rest (Char.ofNat (0x10000 + (n - 0xD800) * 0x400 + (m - 0xDC00)) :: acc)
          else jsonStringBody fuel ('\\' :: 'u' :: g1 :: g2 :: g3 :: g4 :: rest) (Char.ofNat n :: acc)
        | _, _, _, _ => jsonStringBody fuel ('\\' :: 'u' :: g1 :: g2 :: g3 :: g4 :: rest) (Char.ofNat n :: acc)
      else jsonStringBody fuel ('\\' :: 'u' :: g1 :: g2 :: g3 :: g4 :: rest) (Char.ofNat n :: acc)
    | _, _, _, _ => Option.none
  | Nat.succ fuel, '\\' :: 'u' :: h1 :: h2 :: h3 :: h4 :: rest, acc =>
    match hexVal h1, hexVal h2, hexVal h3, hexVal h4 with
    | some a, some b, some c, some d =>
      jsonStringBody fuel rest (Char.ofNat (((a * 16 + b) * 16 + c) * 16 + d) :: acc)
    | _, _, _, _ => Option.none
  | Nat.succ fuel, '\\' :: e :: rest, acc =>
    if e = '"' then jsonStringBody fuel rest ('"' :: acc)
    else if e = '\\' then jsonStringBody fuel rest ('\\' :: acc)
    else if e = '/' then jsonStringBody fuel rest ('/' :: acc)
    else if e = 'b' then jsonStringBody fuel rest ('\x08' :: acc)
    else if e = 'f' then jsonStringBody fuel rest ('\x0c' :: acc)
    else if e = 'n' then jsonStringBody fuel rest ('\n' :: acc)
    else if e = 'r' then jsonStringBody fuel rest ('\r' :: acc)
    else if e = 't' then jsonStringBody fuel rest ('\t' :: acc)
    else Option.none
  | Nat.succ fuel, c :: rest, acc =>
    if c.toNat < 0x20 then Option.none else jsonStringBody fuel rest (c :: acc)

/-- Maximal run of ASCII digits. -/
def takeDigits (s : List Char) : List Char × List Char := s.span Char.isDigit

/-- Fraction and exponent of a JSON number token, mirroring the groups
`(\.\d+)?([eE][-+]?\d+)?`: returns the consumed characters, the rest, and
whether anything was consumed (making the token a float). -/
def jsonNumTail (rest : List Char) : List Char × List Char × Bool :=
  let (frac, r1, f1) : List Char × List Char × Bool :=
    match rest with
    | '.' :: r =>
      match takeDigits r with
      | ([], _) => ([], rest, false)
      | (fs, r2) => ('.' :: fs, r2, true)
    | _ => ([], rest, false)
  let (expo, r2, f2) : List Char × List Char × Bool :=
    match r1 with
    | e :: r =>
      if e = 'e' || e = 'E' then
        let (sgn, r') : List Char × List Char :=
          match r with
          | '+' :: rr => (['+'], rr)
          | '-' :: rr => (['-'], rr)
          | _ => ([], r)
        match takeDigits r' with
        | ([], _) => ([], r1, false)
        | (ds, r'') => (e :: sgn ++ ds, r'', true)
      else ([], r1, false)
    | [] => ([], r1, false)
  (frac ++ expo, r2, f1 || f2)

/-- A JSON number token at the head of the input, per the tokenizer
pattern `-?(?:0|[1-9]\d*)(\.\d+)?([eE][-+]?\d+)?`. -/
def jsonNumber (s : List Char) : Option (PyVal × List Char) :=
  let (sgn, s1) : List Char × List Char :=
    match s with
    | '-' :: r => (['-'], r)
    | _ => ([], s)
  match s1 with
  | '0' :: r1 =>
    let (tail, r2, isF) := jsonNumTail r1
    if isF then some (.float (String.mk (sgn ++ '0' :: tail)), r2)
    else some (.int (if sgn.isEmpty then 0 else 0), r2)
  | c :: _ =>
    if c.isDigit then
      let (ds, r1) := takeDigits s1
      let (tail, r2, isF) := jsonNumTail r1
      if isF then some (.float (String.mk (sgn ++ ds ++ tail)), r2)
      else
        let v : Int := Int.ofNat (digitsVal ds)
        some (.int (if sgn.isEmpty then v else -v), r2)
    else Option.none
  | [] => Option.none

mutual

/-- One JSON value at the head of the (whitespace-skipped) input. -/
def jsonValue : Nat → List Char → Option (PyVal × List Char)
  | 0, _ => Option.none
  | Nat.succ fuel, s =>
    match s with
    | [] => Option.none
    | c :: rest =>
      if c = '"' then
        (jsonStringBody (rest.length + 1) rest []).map (fun pr => (PyVal.str (String.mk pr.1), pr.2))
      else if c = '[' then
        match skipWs rest with
        | ']' :: r => some (.list [], r)
        | r => jsonArrayLoop fuel r []
      else if c = lbrace then
        match skipWs rest with
        | r =>
          if r.head? = some '"' then jsonObjLoop fuel r []
          else if r.head? = some rbrace then some (.dict [], r.tail)
          else Option.none
      else if startsWithL "true".data s then some (.bool true, s.drop 4)
      else if startsWithL "false".data s then some (.bool false, s.drop 5)
      else if startsWithL "null".data s then some (.none, s.drop 4)
      else if startsWithL "NaN".data s then some (.float "nan", s.drop 3)
      else if startsWithL "Infinity".data s then some (.float "inf", s.drop 8)
      else if startsWithL "-Infinity".data s then some (.float "-inf", s.drop 9)
      else jsonNumber s

/-- Comma-separated array elements, after at least one element is due. -/
def jsonArrayLoop : Nat → List Char → List PyVal → Option (PyVal × List Char)
  | 0, _, _ => Option.none
  | Nat.succ fuel, s, acc =>
    match jsonValue fuel s with
    | Option.none => Option.none
    | some (v, r) =>
      match skipWs r with
      | ',' :: r2 => jsonArrayLoop fuel (skipWs r2) (v :: acc)
      | ']' :: r2 => some (.list (v :: acc).reverse, r2)
      | _ => Option.none

/-- Comma-separated `"key": value` members, after at least one is due. -/
def jsonObjLoop : Nat → List Char → Dict → Option (PyVal × List Char)
  | 0, _, _ => Option.none
  | Nat.succ fuel, s, acc =>
    match s with
    | '"' :: rest =>
      match jsonStringBody (rest.length + 1) rest [] with
      | Option.none => Option.none
      | some (key, r) =>
        match skipWs r with
        | ':' :: r2 =>
          match jsonValue fuel (skipWs r2) with
          | Option.none => Option.none
          | some (v, r3) =>
            let acc2 := dinsert acc (String.mk key) v
            match skipWs r3 with
            | ',' :: r4 =>
              match skipWs r4 with
              | '"' :: _ => jsonObjLoop fuel (skipWs r4) acc2
              | _ => Option.none
            | r4 =>
              if r4.head? = some rbrace then some (.dict acc2, r4.tail)
              else Option.none
        | _ => Option.none
    | _ => Option.none

end

/-- `json.loads` on a character list: one value, with only whitespace
around it. -/
def jsonLoads (s : List Char) : Option PyVal :=
  match jsonValue (s.length + 2) (skipWs s) with
  | some (v, rest) => if (skipWs rest).isEmpty then some v else Option.none
  | Option.none => Option.none

/-! ## `parse_cli_override` (`pk/render.py`) -/

/-- Coercion stages after the JSON attempt: the literal strings
`true`/`false` case-insensitively, then `int()`, then `float()`, else the
string itself.  `v` is the already-stripped value text. -/
def coerceTail (v : List Char) : PyVal :=
  if toLowerL v = "true".data then .bool true
  else if toLowerL v = "false".data then .bool false
  else
    match pyIntParse v with
    | some n => .int n
    | Option.none =>
      if pyFloatOk v then .float (String.mk v) else .str (String.mk v)

/-- Value coercion of `parse_cli_override`: a value starting with `[` or
an opening brace is tried as JSON first, silently falling through to the
remaining stages on parse failure (which, for such values, always end at
the string stage). -/
def coerceValue (v : List Char) : PyVal :=
  if v.head? = some '[' || v.head? = some lbrace then
    match jsonLoads v with
    | some j => j
    | Option.none => coerceTail v
  else coerceTail v

/-- `parse_cli_override(override)`: requires a `=`, splits at the first
one, strips both sides, rejects an empty key, and coerces the value. -/
def parse_cli_override (override : String) : Except PyErr (String × PyVal) :=
  match splitOnce '=' override.data with
  | Option.none =>
    .error (.template ("Invalid override format: " ++ override ++ ". Expected key=value.") [])
  | some (k, v) =>
    let key := pyStrip k
    let value := pyStrip v
    if key.isEmpty then .error (.template ("Empty key in override: " ++ override) [])
    else .ok (String.mk key, coerceValue value)

/-! ## Parameter merging (`get_schema_defaults`, `merge_params`) -/

/-- Python `v.get(k, dflt)`.  On a non-mapping this raises
(`AttributeError`), which `except TemplateError` does not stop. -/
def pyGet (v : PyVal) (k : String) (dflt : PyVal) : Except PyErr PyVal :=
  match v with
  | .dict kvs => .ok ((dlookup kvs k).getD dflt)
  | _ => .error (.typeErr ("object has no attribute get: " ++ k))

/-- Python `"default" in p`.  Key membership for a dict, substring test
for a string, element membership for a list (string elements only:
cross-type `==` comparisons never occur in this program's schemas), and a
`TypeError` otherwise. -/
def hasDefault (p : PyVal) : Except PyErr Bool :=
  match p with
  | .dict kvs => .ok (dlookup kvs "default").isSome
  | .str s => .ok (containsSub "default".data s.data)
  | .list xs => .ok (xs.any (fun x => match x with | .str s => s = "default" | _ => false))
  | _ => .error (.typeErr "argument of type is not iterable")

/-- Python `p["default"]`, reached only after `"default" in p` held. -/
def getDefault (p : PyVal) : Except PyErr PyVal :=
  match p with
  | .dict kvs =>
    match dlookup kvs "default" with
    | some v => .ok v
    | Option.none => .error (.typeErr "KeyError: default")
  | _ => .error (.typeErr "indices must be integers")

/-- `get_schema_defaults(schema)`: the mapping of property name to
declared default, for exactly those properties of `schema["properties"]`
that declare a `"default"`. -/
def get_schema_defaults (schema : PyVal) : Except PyErr Dict := do
  let props ← pyGet schema "properties" (.dict [])
  match props with
  | .dict ps =>
    ps.foldlM (fun acc kv => do
      if (← hasDefault kv.2) then
        let v ← getDefault kv.2
        pure (dinsert acc kv.1 v)
      else
        pure acc) []
  | _ => .error (.typeErr "items on non-mapping properties")

/-- One `if layer: merged.update(layer)` step of `merge_params`.  A falsy
layer (`None`, `{}`, ...) is skipped; a truthy non-dict raises outside the
`TemplateError` hierarchy.  (CPython `dict.update` also accepts iterables
of key/value pairs; those never occur here and are modelled as the
error.) -/
def applyLayer (merged : Dict) (layer : Option PyVal) : Except PyErr Dict :=
  match layer with
  | Option.none => .ok merged
  | some v =>
    if pyTruthy v then
      match v with
      | .dict kvs => .ok (dupdate merged kvs)
      | _ => .error (.typeErr "update requires a mapping")
    else .ok merged

/-- `merge_params(schema, preset_params, file_params, cli_overrides)`:
schema defaults, overlaid in order by preset, file, then CLI layers. -/
def merge_params (schema : PyVal) (preset_params file_params cli_overrides : Option PyVal) :
    Except PyErr Dict := do
  let merged ← get_schema_defaults schema
  let merged ← applyLayer merged preset_params
  let merged ← applyLayer merged file_params
  let merged ← applyLayer merged cli_overrides
  pure merged

/-! ## `validate_params` (`pk/render.py`)

Structural validation is delegated to `jsonschema.Draft7Validator`; its
`iter_errors` is threaded through as an oracle producing the list of
violations, each carrying the instance path and a message. -/

/-- One element of a `jsonschema` error path: a property name or an array
index. -/
inductive PathElem where
  | key (s : String)
  | idx (n : Nat)
deriving Repr, DecidableEq

/-- Python `str(p)` on a path element. -/
def PathElem.text : PathElem → String
  | .key s => s
  | .idx n => toString n

/-- One violation reported by the draft-07 validation pass. -/
structure VError where
  absolutePath : List PathElem
  message : String
deriving Repr

/-- The type of the `Draft7Validator(schema).iter_errors(params)` oracle. -/
abbrev IterErrors := PyVal → Dict → List VError

/-- `validate_params(schema, params)`: silent when the validation pass
finds no violations; otherwise raises one `SchemaValidationError` whose
payload has one formatted message per violation — the dotted property
path (`root` for an empty path) plus the violation message. -/
def validate_params (ie : IterErrors) (schema : PyVal) (params : Dict) : Except PyErr Unit :=
  let errors := ie schema params
  if errors.isEmpty then .ok ()
  else
    let error_messages := errors.foldl
      (fun acc err =>
        let path :=
          if err.absolutePath.isEmpty then "root"
          else String.intercalate "." (err.absolutePath.map PathElem.text)
        acc ++ ["  - " ++ path ++ ": " ++ err.message]) []
    .error (.template ("Parameter validation failed:\n" ++ String.intercalate "\n" error_messages)
      error_messages)

/-! ## `compute_hash` (`pk/render.py`): SHA-256 of the UTF-8 text

`hashlib.sha256` is implemented here over `Nat` with explicit reduction
modulo `2^32` (FIPS 180-4). -/

/-- UTF-8 encoding of one character. -/
def utf8Char (c : Char) : List Nat :=
  let n := c.toNat
  if n < 0x80 then [n]
  else if n < 0x800 then
    [0xC0 ||| (n >>> 6), 0x80 ||| (n &&& 0x3F)]
  else if n < 0x10000 then
    [0xE0 ||| (n >>> 12), 0x80 ||| ((n >>> 6) &&& 0x3F), 0x80 ||| (n &&& 0x3F)]
  else
    [0xF0 ||| (n >>> 18), 0x80 ||| ((n >>> 12) &&& 0x3F),
     0x80 ||| ((n >>> 6) &&& 0x3F), 0x80 ||| (n &&& 0x3F)]

/-- `text.encode("utf-8")` as a byte list. -/
def utf8Bytes (s : String) : List Nat := (s.data.map utf8Char).flatten

/-- `2^32`, the word modulus of SHA-256. -/
def M32 : Nat := 4294967296

/-- Right rotation of a 32-bit word. -/
def rotr (n x : Nat) : Nat := ((x >>> n) ||| (x <<< (32 - n))) % M32

/-- Bitwise complement of a 32-bit word. -/
def not32 (x : Nat) : Nat := x ^^^ (M32 - 1)

/-- SHA-256 `Ch`. -/
def shaCh (x y z : Nat) : Nat := (x &&& y) ^^^ (not32 x &&& z)

/-- SHA-256 `Maj`. -/
def shaMaj (x y z : Nat) : Nat := (x &&& y) ^^^ (x &&& z) ^^^ (y &&& z)

/-- SHA-256 `Σ0`. -/
def bsig0 (x : Nat) : Nat := rotr 2 x ^^^ rotr 13 x ^^^ rotr 22 x

/-- SHA-256 `Σ1`. -/
def bsig1 (x : Nat) : Nat := rotr 6 x ^^^ rotr 11 x ^^^ rotr 25 x

/-- SHA-256 `σ0`. -/
def ssig0 (x : Nat) : Nat := rotr 7 x ^^^ rotr 18 x ^^^ (x >>> 3)

/-- SHA-256 `σ1`. -/
def ssig1 (x : Nat) : Nat := rotr 17 x ^^^ rotr 19 x ^^^ (x >>> 10)

/-- The 64 SHA-256 round constants. -/
def shaK : List Nat :=
  [1116352408, 1899447441, 3049323471, 3921009573, 961987163, 1508970993, 2453635748,
   2870763221, 3624381080, 310598401, 607225278, 1426881987, 1925078388, 2162078206,
   2614888103, 3248222580, 3835390401, 4022224774, 264347078, 604807628, 770255983,
   1249150122, 1555081692, 1996064986, 2554220882, 2821834349, 2952996808, 3210313671,
   3336571891, 3584528711, 113926993, 338241895, 666307205, 773529912, 1294757372,
   1396182291, 1695183700, 1986661051, 2177026350, 2456956037, 2730485921, 2820302411,
   3259730800, 3345764771, 3516065817, 3600352804, 4094571909, 275423344, 430227734,
   506948616, 659060556, 883997877, 958139571, 1322822218, 1537002063, 1747873779,
   1955562222, 2024104815, 2227730452, 2361852424, 2428436474, 2756734187, 3204031479,
   3329325298]

/-- The eight 32-bit working variables of the compression function. -/
structure Hash8 where
  a : Nat
  b : Nat
  c : Nat
  d : Nat
  e : Nat
  f : Nat
  g : Nat
  h : Nat
deriving Repr

/-- SHA-256 initial hash value. -/
def shaH0 : Hash8 :=
  ⟨1779033703, 3144134277, 1013904242, 2773480762, 1359893119, 2600822924, 528734635,
   1541459225⟩

/-- Merkle–Damgård padding: `0x80`, zeros to 56 mod 64, then the bit
length as eight big-endian bytes. -/
def padMsg (msg : List Nat) : List Nat :=
  let L := msg.length
  let k := (120 - ((L + 1) % 64)) % 64
  let bits := L * 8
  msg ++ 0x80 :: List.replicate k 0 ++
    [(bits >>> 56) % 256, (bits >>> 48) % 256, (bits >>> 40) % 256, (bits >>> 32) % 256,
     (bits >>> 24) % 256, (bits >>> 16) % 256, (bits >>> 8) % 256, bits % 256]

/-- Split a padded message into 64-byte blocks. -/
def chunks64Go : Nat → List Nat → List (List Nat)
  | 0, _ => []
  | Nat.succ n, l => if l.isEmpty then [] else l.take 64 :: chunks64Go n (l.drop 64)

/-- Split a padded message into its 64-byte blocks (the counter strictly
exceeds the number of blocks). -/
def chunks64 (l : List Nat) : List (List Nat) := chunks64Go (l.length / 64 + 1) l

/-- Big-endian 32-bit words of a block. -/
def bytesToWords : List Nat → List Nat
  | b1 :: b2 :: b3 :: b4 :: rest => (((b1 * 256 + b2) * 256 + b3) * 256 + b4) :: bytesToWords rest
  | _ => []

/-- Extend the 16 message words to the 64-entry schedule. -/
def schedule (w16 : List Nat) : List Nat :=
  go 48 w16
where
  go : Nat → List Nat → List Nat
  | 0, acc => acc
  | Nat.succ n, acc =>
    let L := acc.length
    let w := (acc.getD (L - 16) 0 + ssig0 (acc.getD (L - 15) 0) + acc.getD (L - 7) 0 +
      ssig1 (acc.getD (L - 2) 0)) % M32
    go n (acc ++ [w])

/-- One compression round. -/
def shaRound (st : Hash8) (kw : Nat × Nat) : Hash8 :=
  let t1 := (st.h + bsig1 st.e + shaCh st.e st.f st.g + kw.1 + kw.2) % M32
  let t2 := (bsig0 st.a + shaMaj st.a st.b st.c) % M32
  ⟨(t1 + t2) % M32, st.a, st.b, st.c, (st.d + t1) % M32, st.e, st.f, st.g⟩

/-- Process one 64-byte block. -/
def processBlock (st : Hash8) (block : List Nat) : Hash8 :=
  let ws := schedule (bytesToWords block)
  let t := (shaK.zip ws).foldl shaRound st
  ⟨(st.a + t.a) % M32, (st.b + t.b) % M32, (st.c + t.c) % M32, (st.d + t.d) % M32,
   (st.e + t.e) % M32, (st.f + t.f) % M32, (st.g + t.g) % M32, (st.h + t.h) % M32⟩

/-- SHA-256 of a byte list, as the final eight words. -/
def sha256 (msg : List Nat) : Hash8 :=
  (chunks64 (padMsg msg)).foldl processBlock shaH0

/-- The sixteen lowercase hex digits. -/
def hexChars : List Char := "0123456789abcdef".data

/-- One lowercase hex digit. -/
def hexDigit (n : Nat) : Char := hexChars.getD n '0'

/-- Eight lowercase hex digits of a 32-bit word, most significant first. -/
def wordHex (w : Nat) : List Char :=
  [hexDigit (w / 268435456 % 16), hexDigit (w / 16777216 % 16), hexDigit (w / 1048576 % 16),
   hexDigit (w / 65536 % 16), hexDigit (w / 4096 % 16), hexDigit (w / 256 % 16),
   hexDigit (w / 16 % 16), hexDigit (w % 16)]

/-- `compute_hash(text)`: hex-encoded SHA-256 of the UTF-8 encoding. -/
def compute_hash (text : String) : String :=
  let st := sha256 (utf8Bytes text)
  String.mk (wordHex st.a ++ wordHex st.b ++ wordHex st.c ++ wordHex st.d ++ wordHex st.e ++
    wordHex st.f ++ wordHex st.g ++ wordHex st.h)

/-! ## `normalize_text` (`pk/doctor.py`) -/

/-- `text.replace("\r\n", "\n")`: leftmost non-overlapping scan. -/
def replaceCRLF : List Char → List Char
  | [] => []
  | '\r' :: '\n' :: rest => '\n' :: replaceCRLF rest
  | '\r' :: rest => '\r' :: replaceCRLF rest
  | c :: rest => c :: replaceCRLF rest

/-- `text.replace("\r", "\n")`. -/
def replaceCR (s : List Char) : List Char := s.map (fun c => if c = '\r' then '\n' else c)

/-- Python `text.split("\n")` (never empty; `"".split("\n") == [""]`). -/
def splitLF : List Char → List (List Char)
  | [] => [[]]
  | c :: rest =>
    if c = '\n' then [] :: splitLF rest
    else
      match splitLF rest with
      | l :: ls => (c :: l) :: ls
      | [] => [[c]]

/-- The `while lines and not lines[-1]: lines.pop()` loop. -/
def dropTrailingBlank (ls : List (List Char)) : List (List Char) :=
  ((ls.reverse).dropWhile List.isEmpty).reverse

/-- `"\n".join(lines)`. -/
def joinLF (ls : List (List Char)) : List Char := List.intercalate ['\n'] ls

/-- `normalize_text(text)`: CRLF and lone CR to LF, right-trim each line,
drop trailing blank lines. -/
def normalize_text (s : String) : String :=
  String.mk (joinLF (dropTrailingBlank ((splitLF (replaceCR (replaceCRLF s.data))).map rstripL)))

/-! ## The strict templating engine (`render`, `get_template_variables`)

Modelled from the spec: rendering delegates to an external
strict-undefined templating engine (Jinja2) that substitutes `params`
values for variable references and treats an undefined reference or a
syntax error as a fatal render failure.  The model covers variable
substitution — references written as a double opening brace, a name, and
a double closing brace — which is the engine capability this program's
correctness claims rest on; control constructs are out of scope. -/

mutual

/-- Python `repr` of a value (single-quoted strings). -/
def pyReprOf : PyVal → List Char
  | .none => "None".data
  | .bool true => "True".data
  | .bool false => "False".data
  | .int n => (toString n).data
  | .float lit => lit.data
  | .str s => squote :: s.data ++ [squote]
  | .list xs => '[' :: (List.intercalate ", ".data (pyReprList xs)) ++ [']']
  | .dict kvs => lbrace :: (List.intercalate ", ".data (pyReprDict kvs)) ++ [rbrace]

/-- `repr` of list elements. -/
def pyReprList : List PyVal → List (List Char)
  | [] => []
  | x :: xs => pyReprOf x :: pyReprList xs

/-- `repr` of dict items. -/
def pyReprDict : List (String × PyVal) → List (List Char)
  | [] => []
  | (k, v) :: rest => (squote :: k.data ++ squote :: ':' :: ' ' :: pyReprOf v) :: pyReprDict rest

end

/-- Python `str` of a value, as substituted into rendered output. -/
def pyStrOf : PyVal → List Char
  | .str s => s.data
  | v => pyReprOf v

/-- Characters of a template variable name. -/
def isIdentChar (c : Char) : Bool := c.isAlphanum || c = '_'

/-- After a double opening brace: optional spaces, a name, optional
spaces, and a double closing brace.  Returns the name and the rest. -/
def parseVar (s : List Char) : Option (String × List Char) :=
  let s1 := s.dropWhile (fun c => c = ' ')
  let ident := s1.takeWhile isIdentChar
  let s2 := (s1.dropWhile isIdentChar).dropWhile (fun c => c = ' ')
  if ident.isEmpty then Option.none
  else
    match s2 with
    | c1 :: c2 :: rest =>
      if c1 = rbrace && c2 = rbrace then some (String.mk ident, rest) else Option.none
    | _ => Option.none

/-- The rendering scan.  Fuel strictly exceeds the remaining input length
at every call, so the fuel branch is unreachable from `render`. -/
def renderFuel (params : Dict) : Nat → List Char → Except String (List Char)
  | 0, _ => .error "Rendering failed"
  | Nat.succ fuel, s =>
    match s with
    | [] => .ok []
    | c :: rest =>
      if c = lbrace then
        match rest with
        | c2 :: rest2 =>
          if c2 = lbrace then
            match parseVar rest2 with
            | some (name, rest3) =>
              match dlookup params name with
              | some v => (renderFuel params fuel rest3).map (fun tail => pyStrOf v ++ tail)
              | Option.none => .error ("Undefined variable in template: " ++ name ++ " is undefined")
            | Option.none => .error "Template syntax error"
          else (renderFuel params fuel rest).map (fun tail => c :: tail)
        | [] => .ok [c]
      else (renderFuel params fuel rest).map (fun tail => c :: tail)

/-- The variable-collection scan of `meta.find_undeclared_variables`,
structured identically to the rendering scan. -/
def varsFuel : Nat → List Char → Except String (List String)
  | 0, _ => .error "Template syntax error"
  | Nat.succ fuel, s =>
    match s with
    | [] => .ok []
    | c :: rest =>
      if c = lbrace then
        match rest with
        | c2 :: rest2 =>
          if c2 = lbrace then
            match parseVar rest2 with
            | some (name, rest3) => (varsFuel fuel rest3).map (fun vs => name :: vs)
            | Option.none => .error "Template syntax error"
          else varsFuel fuel rest
        | [] => .ok []
      else varsFuel fuel rest

/-- The names a template references, in order of appearance (duplicates
kept); errors on a syntax error. -/
def varsOf (template_text : String) : Except String (List String) :=
  varsFuel (template_text.data.length + 1) template_text.data

/-- `render(template_text, params)`: substituted text, or a
`RenderError` on an undefined variable or syntax error. -/
def render (template_text : String) (params : Dict) : Except PyErr String :=
  match renderFuel params (template_text.data.length + 1) template_text.data with
  | .ok cs => .ok (String.mk cs)
  | .error m => .error (.template m [])

/-- `get_template_variables(template_text)`: the set of referenced names
(dedicated to the doctor's coverage check). -/
def get_template_variables (template_text : String) : Except PyErr (List String) :=
  match varsOf template_text with
  | .ok vs => .ok vs.dedup
  | .error m => .error (.template ("Template syntax error: " ++ m) [])

/-! ## Template store on disk (`pk/render.py` loaders)

The template directory tree is embedded as data: each template directory
carries its `template.md`, the raw text of `schema.json`, the files of
its `examples/` directory (in sorted order, as `iterdir` + `sorted`
produce them), and `tests/render_golden.md`.  `yaml.safe_load` is
external; each YAML file carries its load outcome (`.error` models a
`YAMLError`). -/

/-- One file of a template's `examples/` directory. -/
structure ExampleFile where
  filename : String
  yamlLoad : Except String PyVal
deriving Repr

/-- One template directory. -/
structure TemplateDir where
  hasTemplateMd : Bool
  templateText : String
  schemaText : Option String
  examples : List ExampleFile
  goldenText : Option String
deriving Repr

/-- The templates directory: named template subdirectories in sorted
iteration order. -/
structure Store where
  templates : List (String × TemplateDir)
deriving Repr

/-- `Path.stem` and `Path.suffix` of a filename: the split at the last
dot, when that dot is neither the first nor the last character. -/
def pySplitExt (fn : String) : String × String :=
  match splitOnce '.' fn.data.reverse with
  | some (revExt, revStem) =>
    if revExt.isEmpty || revStem.isEmpty then (fn, "")
    else (String.mk revStem.reverse, String.mk ('.' :: revExt.reverse))
  | Option.none => (fn, "")

/-- `get_template_dir(template_name)`.  (On a missing template the real
code also lists the available templates in the message; the doctor never
reaches that branch, and the listing is elided here.) -/
def get_template_dir (fs : Store) (name : String) : Except PyErr TemplateDir :=
  match dlookup fs.templates name with
  | some d => .ok d
  | Option.none => .error (.template ("Template " ++ name ++ " not found.") [])

/-- `load_template(template_name)`. -/
def load_template (fs : Store) (name : String) : Except PyErr String := do
  let d ← get_template_dir fs name
  if d.hasTemplateMd then pure d.templateText
  else .error (.template ("Template file not found: " ++ name) [])

/-- `load_schema(template_name)`: the parsed `schema.json`. -/
def load_schema (fs : Store) (name : String) : Except PyErr PyVal := do
  let d ← get_template_dir fs name
  match d.schemaText with
  | Option.none => .error (.template ("Schema file not found: " ++ name) [])
  | some txt =>
    match jsonLoads txt.data with
    | some v => pure v
    | Option.none => .error (.template ("Invalid JSON in schema: " ++ name) [])

/-- One step of template discovery: a directory holding a `template.md`
is listed with the description drawn from its schema — whose load
failure propagates. -/
def listTemplatesStep (fs : Store) (acc : List (String × PyVal)) (nd : String × TemplateDir) :
    Except PyErr (List (String × PyVal)) := do
  if nd.2.hasTemplateMd then
    let schema ← load_schema fs nd.1
    let fallback ← pyGet schema "title" (.str "No description")
    let desc ← pyGet schema "description" fallback
    pure (acc ++ [(nd.1, desc)])
  else pure acc

/-- `list_templates()`. -/
def list_templates (fs : Store) : Except PyErr (List (String × PyVal)) :=
  fs.templates.foldlM (listTemplatesStep fs) []

/-- `list_presets(template_name)`: stems of the `examples/` files with a
YAML extension. -/
def list_presets (fs : Store) (name : String) : Except PyErr (List String) := do
  let d ← get_template_dir fs name
  pure ((d.examples.filter
    (fun ef => (pySplitExt ef.filename).2 = ".yaml" || (pySplitExt ef.filename).2 = ".yml")).map
    (fun ef => (pySplitExt ef.filename).1))

/-- The `content if content else {}` coercion shared by the YAML
loaders: a falsy document (empty file, `null`, ...) becomes `{}`. -/
def yamlOrEmpty (content : PyVal) : PyVal :=
  if pyTruthy content then content else .dict []

/-- `load_preset(template_name, preset_name)`: try `.yaml` then `.yml`. -/
def load_preset (fs : Store) (name preset : String) : Except PyErr PyVal := do
  let d ← get_template_dir fs name
  match d.examples.find? (fun ef => ef.filename = preset ++ ".yaml") with
  | some ef => loadOne ef
  | Option.none =>
    match d.examples.find? (fun ef => ef.filename = preset ++ ".yml") with
    | some ef => loadOne ef
    | Option.none => .error (.template ("Preset " ++ preset ++ " not found for template " ++ name) [])
where
  loadOne (ef : ExampleFile) : Except PyErr PyVal :=
    match ef.yamlLoad with
    | .ok content => .ok (yamlOrEmpty content)
    | .error m => .error (.template ("Invalid YAML in preset: " ++ m) [])

/-- A parameters file handed to `--params`: its path, raw text, and
`yaml.safe_load` outcome on that text. -/
structure ParamsFile where
  path : String
  text : String
  yamlLoad : Except String PyVal
deriving Repr

/-- `load_params_file(path)`: JSON for a `.json` suffix (no falsy
coercion), YAML otherwise (falsy documents become `{}`);
`Option.none` models a missing file. -/
def load_params_file (f : Option ParamsFile) : Except PyErr PyVal :=
  match f with
  | Option.none => .error (.template "Params file not found" [])
  | some pf =>
    if (pySplitExt pf.path).2 = ".json" then
      match jsonLoads pf.text.data with
      | some v => .ok v
      | Option.none => .error (.template ("Invalid JSON in params file: " ++ pf.path) [])
    else
      match pf.yamlLoad with
      | .ok r => .ok (yamlOrEmpty r)
      | .error m => .error (.template ("Invalid YAML in params file: " ++ m) [])

/-! ## The doctor (`pk/doctor.py`) -/

/-- Result of a single validation check. -/
structure ValidationResult where
  template : String
  check : String
  passed : Bool
  message : String
  details : List String := []
deriving Repr

/-- `get_schema_variables(schema)`: the declared property names.  A
non-mapping `properties` raises outside the `TemplateError` hierarchy. -/
def get_schema_variables (schema : PyVal) : Except PyErr (List String) := do
  match (← pyGet schema "properties" (.dict [])) with
  | .dict ps => pure (ps.map Prod.fst)
  | _ => .error (.typeErr "keys on non-mapping properties")

/-- The external oracles the doctor's checks delegate to:
`Draft7Validator(schema).iter_errors(params)` and
`Draft7Validator.check_schema(schema)` (the latter returning a message
exactly when it raises). -/
structure Ext where
  ie : IterErrors
  cs : PyVal → Option String

/-- `validate_schema_json(template_name)`: `schema.json` exists, parses
as JSON, and passes `check_schema` (caught broadly). -/
def validate_schema_json (ext : Ext) (fs : Store) (name : String) :
    Except PyErr ValidationResult := do
  let d ← get_template_dir fs name
  match d.schemaText with
  | Option.none => pure ⟨name, "schema_json", false, "schema.json not found", []⟩
  | some txt =>
    match jsonLoads txt.data with
    | Option.none => pure ⟨name, "schema_json", false, "Invalid JSON", []⟩
    | some schema =>
      match ext.cs schema with
      | some e => pure ⟨name, "schema_json", false, "Invalid JSON Schema: " ++ e, []⟩
      | Option.none => pure ⟨name, "schema_json", true, "Valid JSON Schema", []⟩

/-- `validate_presets(template_name)`: each preset, merged over schema
defaults, must pass `validate_params`; `TemplateError`s are captured per
preset. -/
def validate_presets (ext : Ext) (fs : Store) (name : String) :
    Except PyErr (List ValidationResult) := do
  match load_schema fs name with
  | .error (.template m _) => pure [⟨name, "presets", false, "Could not load schema: " ++ m, []⟩]
  | .error e => .error e
  | .ok schema => do
    let presets ← list_presets fs name
    if presets.isEmpty then
      pure [⟨name, "presets", true, "No presets to validate", []⟩]
    else
      presets.foldlM (fun acc pn => do
        match (do
            let preset_params ← load_preset fs name pn
            let merged ← merge_params schema (some preset_params) Option.none Option.none
            validate_params ext.ie schema merged : Except PyErr Unit) with
        | .ok _ => pure (acc ++ [⟨name, "preset:" ++ pn, true, "Valid", []⟩])
        | .error (.template m _) => pure (acc ++ [⟨name, "preset:" ++ pn, false, m, []⟩])
        | .error e => .error e) []

/-- `validate_template_renders(template_name)`: merge → validate →
render for each preset, or for schema defaults alone when there are no
presets. -/
def validate_template_renders (ext : Ext) (fs : Store) (name : String) :
    Except PyErr (List ValidationResult) := do
  match (do
      let t ← load_template fs name
      let s ← load_schema fs name
      pure (t, s) : Except PyErr (String × PyVal)) with
  | .error (.template m _) =>
    pure [⟨name, "render", false, "Could not load template/schema: " ++ m, []⟩]
  | .error e => .error e
  | .ok (template_text, schema) => do
    let presets ← list_presets fs name
    if presets.isEmpty then
      match (do
          let merged ← merge_params schema Option.none Option.none Option.none
          validate_params ext.ie schema merged
          let _ ← render template_text merged
          pure () : Except PyErr Unit) with
      | .ok _ => pure [⟨name, "render:defaults", true, "Renders with defaults only", []⟩]
      | .error (.template m _) => pure [⟨name, "render:defaults", false, m, []⟩]
      | .error e => .error e
    else
      presets.foldlM (fun acc pn => do
        match (do
            let preset_params ← load_preset fs name pn
            let merged ← merge_params schema (some preset_params) Option.none Option.none
            validate_params ext.ie schema merged
            let _ ← render template_text merged
            pure () : Except PyErr Unit) with
        | .ok _ => pure (acc ++ [⟨name, "render:" ++ pn, true, "Renders successfully", []⟩])
        | .error (.template m _) => pure (acc ++ [⟨name, "render:" ++ pn, false, m, []⟩])
        | .error e => .error e) []

/-- Insertion sort by the given order (Python `sorted` on strings). -/
def sortStrings (l : List String) : List String :=
  l.foldr insertOne []
where
  insertOne (s : String) : List String → List String
  | [] => [s]
  | t :: ts => if s ≤ t then s :: t :: ts else t :: insertOne s ts

/-- The implicit names the templating engine always provides. -/
def jinjaBuiltins : List String := ["loop", "self", "range", "dict", "lipsum", "cycler", "joiner"]

/-- `validate_variable_coverage(template_name)`: every referenced name
must be a declared property (engine built-ins excluded); unused declared
properties are a non-fatal detail. -/
def validate_variable_coverage (fs : Store) (name : String) :
    Except PyErr ValidationResult := do
  match (do
      let t ← load_template fs name
      let s ← load_schema fs name
      pure (t, s) : Except PyErr (String × PyVal)) with
  | .error (.template m _) =>
    pure ⟨name, "variable_coverage", false, "Could not load template/schema: " ++ m, []⟩
  | .error e => .error e
  | .ok (template_text, schema) =>
    match get_template_variables template_text with
    | .error (.template m _) =>
      pure ⟨name, "variable_coverage", false, "Template parse error: " ++ m, []⟩
    | .error e => .error e
    | .ok template_vars => do
      let schema_vars ← get_schema_variables schema
      let undeclared := template_vars.filter
        (fun v => !schema_vars.contains v && !jinjaBuiltins.contains v)
      if !undeclared.isEmpty then
        pure ⟨name, "variable_coverage", false,
          "Undeclared variables in template: " ++
            String.intercalate ", " (sortStrings undeclared),
          ["Add these to schema.json or fix typos"]⟩
      else
        let unused := schema_vars.filter (fun v => !template_vars.contains v)
        let details := if unused.isEmpty then []
          else ["Schema variables not used in template: " ++
            String.intercalate ", " (sortStrings unused)]
        pure ⟨name, "variable_coverage", true, "All template variables declared in schema", details⟩

/-- The first index (from `i`) at which the zipped line lists differ,
with the differing pair — the doctor's `for i, (r, e) in enumerate(zip(...))`
loop with `strict=False`. -/
def findFirstDiff (i : Nat) : List String → List String → Option (Nat × String × String)
  | r :: rs, e :: es => if r ≠ e then some (i, r, e) else findFirstDiff (i + 1) rs es
  | _, _ => Option.none

/-- `s[:80]` plus the ellipsis marker for longer lines. -/
def truncate80 (s : String) : String :=
  s.take 80 ++ (if s.length > 80 then "..." else "")

/-- Detail lines of a failed golden comparison: the first differing line,
or a line-count mismatch when the zipped prefixes agree. -/
def goldenDiffDetails (rendered_lines expected_lines : List String) : List String :=
  match findFirstDiff 0 rendered_lines expected_lines with
  | some (i, r, e) =>
    ["First difference at line " ++ toString (i + 1) ++ ":",
     "  Expected: " ++ truncate80 e,
     "  Got:      " ++ truncate80 r]
  | Option.none =>
    if rendered_lines.length ≠ expected_lines.length then
      ["Line count mismatch: expected " ++ toString expected_lines.length ++ ", got " ++
        toString rendered_lines.length]
    else []

/-- The parameter layering of the golden check: the preset named
`default` over schema defaults when it exists, schema defaults alone
otherwise. -/
def goldenMerged (fs : Store) (name : String) (schema : PyVal) (presets : List String) :
    Except PyErr Dict :=
  if presets.contains "default" then do
    let preset_params ← load_preset fs name "default"
    merge_params schema (some preset_params) Option.none Option.none
  else merge_params schema Option.none Option.none Option.none

/-- `validate_golden_test(template_name)`: missing golden file fails the
check; otherwise render with the `default` preset when present (schema
defaults alone otherwise) and compare normalized texts against
`templates/<name>/tests/render_golden.md`. -/
def validate_golden_test (ext : Ext) (fs : Store) (name : String) :
    Except PyErr ValidationResult := do
  let d ← get_template_dir fs name
  match d.goldenText with
  | Option.none =>
    pure ⟨name, "golden_test", false,
      "Golden file not found: templates/" ++ name ++ "/tests/render_golden.md",
      ["Create tests/render_golden.md with expected output"]⟩
  | some expected =>
    match (do
        let template_text ← load_template fs name
        let schema ← load_schema fs name
        let presets ← list_presets fs name
        let merged ← goldenMerged fs name schema presets
        validate_params ext.ie schema merged
        render template_text merged : Except PyErr String) with
    | .error (.template m _) => pure ⟨name, "golden_test", false, "Render failed: " ++ m, []⟩
    | .error e => .error e
    | .ok rendered =>
      let rendered_norm := normalize_text rendered
      let expected_norm := normalize_text expected
      if rendered_norm = expected_norm then
        pure ⟨name, "golden_test", true, "Golden test passed", []⟩
      else
        pure ⟨name, "golden_test", false, "Golden test failed - output does not match expected",
          goldenDiffDetails ((splitLF rendered_norm.data).map String.mk)
            ((splitLF expected_norm.data).map String.mk)⟩

/-- Following the spec's words: the golden comparison renders using the
preset named `default` when present and schema defaults alone otherwise
(merge, validate, then render). -/
def goldenRenderSpec (ext : Ext) (fs : Store) (name : String) : Except PyErr String := do
  let template_text ← load_template fs name
  let schema ← load_schema fs name
  let presets ← list_presets fs name
  let merged ← goldenMerged fs name schema presets
  validate_params ext.ie schema merged
  render template_text merged

/-- Following the spec's words: the first position at which the paired
lines differ, with the two lines. -/
def firstDiffSpec : List (String × String) → Option (Nat × String × String)
  | [] => Option.none
  | (r, e) :: rest =>
    if r = e then (firstDiffSpec rest).map (fun x => (x.1 + 1, x.2)) else some (0, r, e)

/-- Following the spec's words: compare the normalized render against the
normalized golden document; on mismatch report the first differing line,
each side truncated to 80 characters, or a line-count mismatch when no
differing line exists up to the shorter length. -/
def goldenCompareSpec (name : String) (rendered expected : String) : ValidationResult :=
  let rn := normalize_text rendered
  let en := normalize_text expected
  if rn = en then ⟨name, "golden_test", true, "Golden test passed", []⟩
  else
    let rl := (splitLF rn.data).map String.mk
    let el := (splitLF en.data).map String.mk
    let details :=
      match firstDiffSpec (rl.zip el) with
      | some (i, r, e) =>
        ["First difference at line " ++ toString (i + 1) ++ ":",
         "  Expected: " ++ truncate80 e,
         "  Got:      " ++ truncate80 r]
      | Option.none =>
        if rl.length ≠ el.length then
          ["Line count mismatch: expected " ++ toString el.length ++ ", got " ++
            toString rl.length]
        else []
    ⟨name, "golden_test", false, "Golden test failed - output does not match expected", details⟩

/-- `validate_template(template_name)`: the five checks in order. -/
def validate_template (ext : Ext) (fs : Store) (name : String) :
    Except PyErr (List ValidationResult) := do
  let r1 ← validate_schema_json ext fs name
  let rs2 ← validate_presets ext fs name
  let r3 ← validate_variable_coverage fs name
  let rs4 ← validate_template_renders ext fs name
  let r5 ← validate_golden_test ext fs name
  pure ([r1] ++ rs2 ++ [r3] ++ rs4 ++ [r5])

/-- `validate_all_templates()`: discover templates, then run the battery
on each; a raised exception escapes as `.error`. -/
def validate_all_templates (ext : Ext) (fs : Store) : Except PyErr (List ValidationResult) := do
  let templates ← list_templates fs
  if templates.isEmpty then
    pure [⟨"(none)", "templates_exist", false, "No templates found",
      ["Expected templates in: templates"]⟩]
  else
    templates.foldlM (fun acc nd => do
      let results ← validate_template ext fs nd.1
      pure (acc ++ results)) []

/-- `DoctorReport.passed`: the conjunction of all check outcomes. -/
def reportPassed (results : List ValidationResult) : Bool := results.all (·.passed)

/-! # Theorems -/

/-! ## C8: `compute_hash` -/

theorem wordHex_length (w : Nat) : (wordHex w).length = 8 := rfl

theorem hexDigit_mem (n : Nat) : hexDigit n ∈ hexChars := by
  unfold hexDigit
  rcases Nat.lt_or_ge n hexChars.length with h | h
  · rw [List.getD_eq_getElem hexChars '0' h]
    exact List.getElem_mem h
  · rw [List.getD_eq_default hexChars '0' h]
    decide

theorem wordHex_mem (w : Nat) {c : Char} (hc : c ∈ wordHex w) : c ∈ hexChars := by
  simp only [wordHex, List.mem_cons, List.not_mem_nil, or_false] at hc
  rcases hc with rfl | rfl | rfl | rfl | rfl | rfl | rfl | rfl <;> exact hexDigit_mem _

/-- C8: `compute_hash` is a deterministic function of its input text:
equal inputs yield the same digest, every digest is a 64-character string
of lowercase hexadecimal characters, and the distinct inputs `"Hello"`
and `"World"` yield distinct digests. -/
theorem compute_hash_spec :
    (∀ s t : String, s = t → compute_hash s = compute_hash t)
    ∧ (∀ s : String,
        (compute_hash s).length = 64 ∧ ∀ c ∈ (compute_hash s).data, c ∈ hexChars)
    ∧ compute_hash "Hello" ≠ compute_hash "World" := by
  refine ⟨fun s t h => h ▸ rfl, fun s => ⟨?_, ?_⟩, by decide⟩
  · show (String.mk _).length = 64
    simp [String.length, List.length_append, wordHex_length]
  · intro c hc
    show c ∈ hexChars
    simp only [compute_hash, String.data, List.mem_append] at hc
    rcases hc with ((((((h | h) | h) | h) | h) | h) | h) | h <;> exact wordHex_mem _ h

/-- C8 witness: the determinism conjunct applied at a concrete input. -/
theorem compute_hash_spec_witness : compute_hash "Hello" = compute_hash "Hello" :=
  compute_hash_spec.1 "Hello" "Hello" rfl

/-! ## C2 and C9: `parse_cli_override` -/

theorem splitOnce_eq_none {sep : Char} {s : List Char} (h : sep ∉ s) :
    splitOnce sep s = Option.none := by
  induction s with
  | nil => rfl
  | cons c rest ih =>
    simp only [List.mem_cons, not_or] at h
    have hcs : ¬(c = sep) := fun hc => h.1 hc.symm
    simp only [splitOnce, if_neg hcs, ih h.2]
    rfl

theorem splitOnce_append {sep : Char} {k : List Char} (v : List Char) (h : sep ∉ k) :
    splitOnce sep (k ++ sep :: v) = some (k, v) := by
  induction k with
  | nil => simp [splitOnce]
  | cons c rest ih =>
    simp only [List.mem_cons, not_or] at h
    have hcs : ¬(c = sep) := fun hc => h.1 hc.symm
    simp only [List.cons_append, splitOnce, if_neg hcs, List.append_eq, ih h.2]
    rfl

/-- C2: `parse_cli_override` fails on every input without `=`; otherwise
it splits at the first `=` and coerces the stripped value — JSON for
values opening a bracket or brace (silently falling through on parse
failure), then case-insensitive booleans, then integer, then float, else
the string itself — as witnessed across the documented grammar. -/
theorem parse_cli_override_spec :
    (∀ s : String, '=' ∉ s.data → ∃ m, parse_cli_override s = .error (.template m []))
    ∧ parse_cli_override "count=42" = .ok ("count", .int 42)
    ∧ parse_cli_override "rate=3.14" = .ok ("rate", .float "3.14")
    ∧ parse_cli_override "enabled=true" = .ok ("enabled", .bool true)
    ∧ parse_cli_override "enabled=false" = .ok ("enabled", .bool false)
    ∧ parse_cli_override "enabled=TRUE" = .ok ("enabled", .bool true)
    ∧ parse_cli_override "enabled=False" = .ok ("enabled", .bool false)
    ∧ parse_cli_override "items=[\"a\",\"b\"]" = .ok ("items", .list [.str "a", .str "b"])
    ∧ parse_cli_override "config=\x7b\"k\":1\x7d" = .ok ("config", .dict [("k", .int 1)])
    ∧ parse_cli_override "x=1e3" = .ok ("x", .float "1e3")
    ∧ parse_cli_override "note=plain text" = .ok ("note", .str "plain text")
    ∧ (∀ v : List Char, v.head? = some '[' ∨ v.head? = some lbrace →
        jsonLoads v = Option.none → coerceValue v = coerceTail v)
    ∧ parse_cli_override "bad=[not json" = .ok ("bad", .str "[not json") := by
  refine ⟨?_, rfl, rfl, rfl, rfl, rfl, rfl, rfl, rfl, rfl, rfl, ?_, rfl⟩
  · intro s h
    unfold parse_cli_override
    rw [splitOnce_eq_none h]
    exact ⟨_, rfl⟩
  · intro v hv hj
    rcases hv with hv | hv <;> simp [coerceValue, hv, hj]

/-- C2 witness: the universally quantified failure conjunct at a
concrete input without `=`. -/
theorem parse_cli_override_spec_witness :
    ∃ m, parse_cli_override "novalue" = .error (.template m []) :=
  parse_cli_override_spec.1 "novalue" (by decide)

/-- C9: with a `=` present, an empty or whitespace-only key is rejected;
only the first `=` splits, so later `=` characters stay in the value. -/
theorem parse_cli_override_key_spec :
    (∀ k v : List Char, '=' ∉ k → pyStrip k = [] →
      ∃ m, parse_cli_override (String.mk (k ++ '=' :: v)) = .error (.template m []))
    ∧ (∀ k v : List Char, '=' ∉ k → pyStrip k ≠ [] →
      parse_cli_override (String.mk (k ++ '=' :: v)) =
        .ok (String.mk (pyStrip k), coerceValue (pyStrip v)))
    ∧ parse_cli_override "=value" = .error (.template "Empty key in override: =value" [])
    ∧ parse_cli_override " =value" = .error (.template "Empty key in override:  =value" [])
    ∧ parse_cli_override "a=b=c" = .ok ("a", .str "b=c") := by
  refine ⟨?_, ?_, rfl, rfl, rfl⟩
  · intro k v hk hs
    have hsplit : splitOnce '=' (String.mk (k ++ '=' :: v)).data = some (k, v) :=
      splitOnce_append v hk
    unfold parse_cli_override
    rw [hsplit]
    simp only [hs, List.isEmpty_nil, if_true]
    exact ⟨_, rfl⟩
  · intro k v hk hs
    have hsplit : splitOnce '=' (String.mk (k ++ '=' :: v)).data = some (k, v) :=
      splitOnce_append v hk
    unfold parse_cli_override
    rw [hsplit]
    simp [List.isEmpty_eq_true, hs]

/-- C9 witness: the splitting conjunct at a concrete key and a value
containing `=`. -/
theorem parse_cli_override_key_spec_witness :
    parse_cli_override (String.mk ("ky".data ++ '=' :: "x=y".data)) =
      .ok (String.mk (pyStrip "ky".data), coerceValue (pyStrip "x=y".data)) :=
  parse_cli_override_key_spec.2.1 "ky".data "x=y".data (by decide) (by decide)

/-! ## C4: `validate_params` -/

theorem foldl_append_map {α β : Type} (f : α → β) (l : List α) (acc : List β) :
    l.foldl (fun acc e => acc ++ [f e]) acc = acc ++ l.map f := by
  induction l generalizing acc with
  | nil => simp
  | cons x xs ih => simp [ih]

/-- Following the spec's words: one formatted message per violation —
the dotted property path, `root` for an empty path, plus the violation
message. -/
def violationMsg (e : VError) : String :=
  "  - " ++ (if e.absolutePath = [] then "root"
    else String.intercalate "." (e.absolutePath.map PathElem.text)) ++ ": " ++ e.message

/-- C4: `validate_params` returns silently exactly when the validation
pass finds zero violations; otherwise it fails with a composite error
carrying one formatted message per violation (the dotted path, `root`
for an empty path, plus the message). -/
theorem validate_params_spec (ie : IterErrors) (schema : PyVal) (params : Dict) :
    (validate_params ie schema params = .ok () ↔ ie schema params = [])
    ∧ (ie schema params ≠ [] →
      validate_params ie schema params = .error (.template
        ("Parameter validation failed:\n" ++
          String.intercalate "\n" ((ie schema params).map violationMsg))
        ((ie schema params).map violationMsg))
      ∧ ((ie schema params).map violationMsg).length = (ie schema params).length) := by
  have hfold : (ie schema params).foldl
      (fun acc err => acc ++ ["  - " ++
        (if err.absolutePath.isEmpty then "root"
         else String.intercalate "." (err.absolutePath.map PathElem.text)) ++ ": " ++
        err.message]) [] = (ie schema params).map violationMsg := by
    rw [foldl_append_map]
    simp only [List.nil_append]
    apply List.map_congr_left
    intro e _
    unfold violationMsg
    by_cases h : e.absolutePath = [] <;> simp [h]
  constructor
  · constructor
    · intro h
      by_contra hne
      have : ¬(ie schema params).isEmpty := by
        simpa [List.isEmpty_eq_true] using hne
      unfold validate_params at h
      rw [if_neg this] at h
      exact Except.noConfusion h
    · intro h
      unfold validate_params
      simp [h]
  · intro hne
    refine ⟨?_, by simp⟩
    have : ¬(ie schema params).isEmpty = true := by
      simpa [List.isEmpty_eq_true] using hne
    unfold validate_params
    rw [if_neg this, hfold]

/-- C4 witness: the failure conjunct at a single concrete violation. -/
theorem validate_params_spec_witness :
    validate_params (fun _ _ => [⟨[], "boom"⟩]) (.dict []) [] = .error (.template
      ("Parameter validation failed:\n" ++
        String.intercalate "\n" (List.map violationMsg [⟨[], "boom"⟩]))
      (List.map violationMsg [⟨[], "boom"⟩])) :=
  ((validate_params_spec (fun _ _ => [⟨[], "boom"⟩]) (.dict []) []).2
    (List.cons_ne_nil _ _)).1

/-! ## C1: `merge_params` precedence -/

/-- First-defined of two optional values. -/
def ofirst {α : Type} (a b : Option α) : Option α :=
  match a with
  | some v => some v
  | Option.none => b

/-- Lookup in an optional layer. -/
def olookup (o : Option Dict) (k : String) : Option PyVal :=
  match o with
  | some d => dlookup d k
  | Option.none => Option.none

/-- Is the value a Python dict? -/
def isDict : PyVal → Bool
  | .dict _ => true
  | _ => false

theorem dlookup_dinsert (d : Dict) (k : String) (v : PyVal) (k' : String) :
    dlookup (dinsert d k v) k' = if k = k' then some v else dlookup d k' := by
  induction d with
  | nil => simp [dinsert, dlookup]
  | cons kv rest ih =>
    obtain ⟨k0, v0⟩ := kv
    by_cases h0 : k0 = k
    · subst h0
      simp only [dinsert, if_pos rfl, dlookup]
      by_cases h1 : k0 = k' <;> simp [h1]
    · simp only [dinsert, if_neg h0, dlookup]
      by_cases h1 : k0 = k'
      · subst h1
        have : ¬(k = k0) := fun h => h0 h.symm
        simp [this]
      · simp [h1, ih]

theorem dlookup_eq_none {α : Type} (d : List (String × α)) (k : String)
    (h : k ∉ d.map Prod.fst) : dlookup d k = Option.none := by
  induction d with
  | nil => rfl
  | cons kv rest ih =>
    simp only [List.map_cons, List.mem_cons, not_or] at h
    have : ¬(kv.1 = k) := fun hc => h.1 hc.symm
    cases kv
    simp only [dlookup] at *
    simp [if_neg this, ih h.2]

theorem dlookup_dupdate (d e : Dict) (hnd : (e.map Prod.fst).Nodup) (k : String) :
    dlookup (dupdate d e) k = ofirst (dlookup e k) (dlookup d k) := by
  induction e generalizing d with
  | nil => simp [dupdate, dlookup, ofirst]
  | cons kv rest ih =>
    obtain ⟨k0, v0⟩ := kv
    simp only [List.map_cons, List.nodup_cons] at hnd
    have step : dupdate d ((k0, v0) :: rest) = dupdate (dinsert d k0 v0) rest := rfl
    rw [step, ih _ hnd.2]
    by_cases h0 : k0 = k
    · subst h0
      have hre : dlookup rest k0 = Option.none := dlookup_eq_none rest k0 hnd.1
      simp [dlookup, dlookup_dinsert, hre, ofirst]
    · have : ¬(k0 = k) := h0
      simp [dlookup, dlookup_dinsert, this, ofirst]

/-- The pure computation performed by the `get_schema_defaults` loop. -/
def defaultsFold (ps : List (String × PyVal)) (acc : Dict) : Dict :=
  ps.foldl (fun acc kv =>
    match kv.2 with
    | .dict pk =>
      match dlookup pk "default" with
      | some v => dinsert acc kv.1 v
      | Option.none => acc
    | _ => acc) acc

theorem except_bind_ok {ε α β : Type} (a : α) (f : α → Except ε β) :
    (Except.ok a >>= f : Except ε β) = f a := rfl

theorem except_pure_eq {ε α : Type} (a : α) : (pure a : Except ε α) = Except.ok a := rfl

theorem except_bind_err {ε α β : Type} (e : ε) (f : α → Except ε β) :
    (Except.error e >>= f : Except ε β) = Except.error e := rfl

theorem defaults_foldlM_eq (props : List (String × PyVal))
    (hpd : props.all (fun kv => isDict kv.2) = true) (acc : Dict) :
    props.foldlM (fun acc kv => do
      if (← hasDefault kv.2) then
        let v ← getDefault kv.2
        pure (dinsert acc kv.1 v)
      else pure acc) acc = .ok (defaultsFold props acc) := by
  induction props generalizing acc with
  | nil => rfl
  | cons kv rest ih =>
    obtain ⟨k0, p0⟩ := kv
    simp only [List.all_cons, Bool.and_eq_true] at hpd
    obtain ⟨pk, hpk⟩ : ∃ pk, p0 = PyVal.dict pk := by
      revert hpd
      cases p0 <;> simp [isDict]
    subst hpk
    cases hdef : dlookup pk "default" with
    | some v =>
      have hf : defaultsFold ((k0, PyVal.dict pk) :: rest) acc =
          defaultsFold rest (dinsert acc k0 v) := by
        simp [defaultsFold, hdef]
      rw [hf, ← ih hpd.2 (dinsert acc k0 v)]
      simp [List.foldlM, hasDefault, getDefault, hdef, except_bind_ok]
    | none =>
      have hf : defaultsFold ((k0, PyVal.dict pk) :: rest) acc = defaultsFold rest acc := by
        simp [defaultsFold, hdef]
      rw [hf, ← ih hpd.2 acc]
      simp [List.foldlM, hasDefault, getDefault, hdef, except_bind_ok]

theorem get_schema_defaults_eq (schema : PyVal) (props : List (String × PyVal))
    (hprops : pyGet schema "properties" (.dict []) = .ok (.dict props))
    (hpd : props.all (fun kv => isDict kv.2) = true) :
    get_schema_defaults schema = .ok (defaultsFold props []) := by
  have hfold := defaults_foldlM_eq props hpd []
  unfold get_schema_defaults
  rw [hprops]
  exact hfold

theorem dlookup_defaultsFold (props : List (String × PyVal))
    (hnd : (props.map Prod.fst).Nodup)
    (k : String) (acc : Dict) :
    dlookup (defaultsFold props acc) k =
      (match dlookup props k with
       | some (.dict pk) =>
         (match dlookup pk "default" with
          | some v => some v
          | Option.none => dlookup acc k)
       | some _ => dlookup acc k
       | Option.none => dlookup acc k) := by
  induction props generalizing acc with
  | nil => simp [defaultsFold, dlookup]
  | cons kv rest ih =>
    obtain ⟨k0, p0⟩ := kv
    simp only [List.map_cons, List.nodup_cons] at hnd
    have step : defaultsFold ((k0, p0) :: rest) acc = defaultsFold rest
        (match p0 with
         | .dict pk =>
           match dlookup pk "default" with
           | some v => dinsert acc k0 v
           | Option.none => acc
         | _ => acc) := rfl
    rw [step, ih hnd.2]
    by_cases h0 : k0 = k
    · subst h0
      have hre : dlookup rest k0 = Option.none := dlookup_eq_none rest k0 hnd.1
      cases p0 <;> simp only [dlookup, if_pos rfl, hre] <;> try rfl
      all_goals rename_i pk
      all_goals cases hdef : dlookup pk "default" <;> simp [hdef, dlookup_dinsert]
    · have hne : ¬(k0 = k) := h0
      cases p0 <;> simp only [dlookup, if_neg hne]
      all_goals rename_i pk
      all_goals cases hdef : dlookup pk "default"
      all_goals simp [hdef, dlookup_dinsert, hne]

/-- The pure effect of one optional dict layer. -/
def layerUpdate (m : Dict) (o : Option Dict) : Dict :=
  match o with
  | some d => dupdate m d
  | Option.none => m

theorem applyLayer_dict (m : Dict) (o : Option Dict) :
    applyLayer m (o.map PyVal.dict) = .ok (layerUpdate m o) := by
  cases o with
  | none => rfl
  | some d =>
    cases d with
    | nil => rfl
    | cons kv rest => rfl

theorem dlookup_layerUpdate (m : Dict) (o : Option Dict)
    (hnd : ∀ d, o = some d → (d.map Prod.fst).Nodup) (k : String) :
    dlookup (layerUpdate m o) k = ofirst (olookup o k) (dlookup m k) := by
  cases o with
  | none => simp [layerUpdate, olookup, ofirst]
  | some d =>
    simp only [layerUpdate, olookup]
    exact dlookup_dupdate m d (hnd d rfl) k

/-- C1: `merge_params` produces the mapping built from the schema
defaults — exactly the properties declaring a `"default"` — overlaid in
order by the preset, file, and CLI layers, so for every key the topmost
defined layer wins (CLI over file over preset over default). -/
theorem merge_params_spec (schema : PyVal) (props : List (String × PyVal))
    (hprops : pyGet schema "properties" (.dict []) = .ok (.dict props))
    (hnd : (props.map Prod.fst).Nodup)
    (hpd : props.all (fun kv => isDict kv.2) = true)
    (preset file cli : Option Dict)
    (hn1 : ∀ d, preset = some d → (d.map Prod.fst).Nodup)
    (hn2 : ∀ d, file = some d → (d.map Prod.fst).Nodup)
    (hn3 : ∀ d, cli = some d → (d.map Prod.fst).Nodup) :
    ∃ defaults merged,
      get_schema_defaults schema = .ok defaults
      ∧ merge_params schema (preset.map .dict) (file.map .dict) (cli.map .dict) = .ok merged
      ∧ (∀ k, dlookup defaults k =
          (match dlookup props k with
           | some (.dict pk) => dlookup pk "default"
           | _ => Option.none))
      ∧ (∀ k, dlookup merged k =
          ofirst (olookup cli k) (ofirst (olookup file k)
            (ofirst (olookup preset k) (dlookup defaults k)))) := by
  have hdef := get_schema_defaults_eq schema props hprops hpd
  refine ⟨defaultsFold props [], layerUpdate (layerUpdate (layerUpdate
    (defaultsFold props []) preset) file) cli, hdef, ?_, ?_, ?_⟩
  · unfold merge_params
    rw [hdef]
    simp only [except_bind_ok, applyLayer_dict]
    rfl
  · intro k
    rw [dlookup_defaultsFold props hnd k []]
    cases h : dlookup props k with
    | none => rfl
    | some p =>
      cases p <;> simp only [dlookup]
      case dict pk => cases hd : dlookup pk "default" <;> rfl
  · intro k
    rw [dlookup_layerUpdate _ cli hn3, dlookup_layerUpdate _ file hn2,
      dlookup_layerUpdate _ preset hn1]

/-- C1 witness: a concrete schema with one defaulted and one
default-free property, and conflicting layers. -/
theorem merge_params_spec_witness :
    ∃ defaults merged,
      get_schema_defaults (.dict [("properties", .dict
        [("a", .dict [("default", .int 1)]), ("b", .dict [])])]) = .ok defaults
      ∧ merge_params (.dict [("properties", .dict
          [("a", .dict [("default", .int 1)]), ("b", .dict [])])])
          ((some [("a", .int 2)]).map .dict) ((some [("a", .int 3)]).map .dict)
          ((some [("a", .int 4)]).map .dict) = .ok merged
      ∧ (∀ k, dlookup defaults k =
          (match dlookup [("a", PyVal.dict [("default", PyVal.int 1)]),
              ("b", PyVal.dict [])] k with
           | some (.dict pk) => dlookup pk "default"
           | _ => Option.none))
      ∧ (∀ k, dlookup merged k =
          ofirst (olookup (some [("a", .int 4)]) k) (ofirst (olookup (some [("a", .int 3)]) k)
            (ofirst (olookup (some [("a", .int 2)]) k) (dlookup defaults k)))) :=
  merge_params_spec (.dict [("properties", .dict
      [("a", .dict [("default", .int 1)]), ("b", .dict [])])])
    [("a", .dict [("default", .int 1)]), ("b", .dict [])] rfl (by decide) rfl
    (some [("a", .int 2)]) (some [("a", .int 3)]) (some [("a", .int 4)])
    (fun d h => by cases h; decide) (fun d h => by cases h; decide)
    (fun d h => by cases h; decide)

/-! ## C7: `normalize_text` insensitivity

A text "differing only in line-ending style, trailing whitespace on
lines, and trailing blank lines" is formalized as a list of segments:
each segment is a line body (free of CR/LF), trailing whitespace, and
one of the three line endings.  Trailing blank lines are segments with
an empty body.  The one genuine constraint: a lone-CR ending directly
followed by an LF-only blank segment would read as a single CRLF, so
that shape is excluded. -/

/-- A line ending. -/
inductive Ending where
  | lf
  | crlf
  | cr
deriving Repr, DecidableEq

/-- The characters of a line ending. -/
def Ending.chars : Ending → List Char
  | .lf => ['\n']
  | .crlf => ['\r', '\n']
  | .cr => ['\r']

/-- One physical line: body, trailing whitespace, ending. -/
structure Seg where
  line : List Char
  pad : List Char
  ending : Ending

/-- The text assembled from the segments. -/
def flattenSegs (segs : List Seg) : List Char :=
  (segs.map (fun sg => sg.line ++ sg.pad ++ sg.ending.chars)).flatten

/-- No CR or LF among the characters. -/
def noNL (l : List Char) : Bool := l.all (fun c => c != '\n' && c != '\r')

/-- Whitespace characters only (and no CR/LF). -/
def padOk (l : List Char) : Bool := l.all (fun c => pyIsSpace c && c != '\n' && c != '\r')

/-- A well-formed segment: clean body, whitespace-only pad. -/
def segClean (sg : Seg) : Bool := noNL sg.line && padOk sg.pad

/-- Is this segment an LF-only blank (empty body, empty pad, LF)? -/
def lfBlank (sg : Seg) : Bool := sg.line.isEmpty && sg.pad.isEmpty && sg.ending = Ending.lf

/-- No lone-CR ending directly followed by an LF-only blank segment
(which would read as a CRLF). -/
def noMerge : List Seg → Bool
  | s1 :: s2 :: rest => (!(s1.ending = Ending.cr) || !(lfBlank s2)) && noMerge (s2 :: rest)
  | _ => true

theorem replaceCRLF_cons_ne {c : Char} (hc : ¬(c = '\r')) (xs : List Char) :
    replaceCRLF (c :: xs) = c :: replaceCRLF xs := by
  rw [replaceCRLF.eq_def]
  split <;> simp_all

theorem replaceCRLF_crlf (t : List Char) :
    replaceCRLF ('\r' :: '\n' :: t) = '\n' :: replaceCRLF t := rfl

theorem replaceCRLF_cr (t : List Char) (h : ¬(t.head? = some '\n')) :
    replaceCRLF ('\r' :: t) = '\r' :: replaceCRLF t := by
  cases t with
  | nil => rfl
  | cons c2 t2 =>
    simp only [List.head?] at h
    have : ¬(c2 = '\n') := fun hc => h (by rw [hc])
    rw [replaceCRLF.eq_def]
    split
    all_goals try simp_all
    all_goals (rename_i hne heq; exact absurd heq.1.symm hne)

theorem replaceCRLF_append_clean {l : List Char} (h : ∀ c ∈ l, ¬(c = '\r')) (t : List Char) :
    replaceCRLF (l ++ t) = l ++ replaceCRLF t := by
  induction l with
  | nil => rfl
  | cons c rest ih =>
    simp only [List.mem_cons] at h
    rw [List.cons_append, replaceCRLF_cons_ne (h c (Or.inl rfl)), ih (fun x hx => h x (Or.inr hx))]
    rfl

theorem replaceCR_clean {l : List Char} (h : ∀ c ∈ l, ¬(c = '\r')) : replaceCR l = l := by
  induction l with
  | nil => rfl
  | cons c rest ih =>
    simp only [List.mem_cons] at h
    simp only [replaceCR, List.map_cons, if_neg (h c (Or.inl rfl))]
    have := ih (fun x hx => h x (Or.inr hx))
    simp only [replaceCR] at this
    rw [this]

theorem segClean_no_cr {sg : Seg} (h : segClean sg = true) :
    ∀ c ∈ sg.line ++ sg.pad, ¬(c = '\r') := by
  simp only [segClean, noNL, padOk, Bool.and_eq_true, List.all_eq_true] at h
  intro c hc
  rcases List.mem_append.mp hc with hm | hm
  · have := h.1 c hm
    simp only [Bool.and_eq_true, bne_iff_ne, ne_eq] at this
    exact this.2
  · have := h.2 c hm
    simp only [Bool.and_eq_true, bne_iff_ne, ne_eq] at this
    exact this.2

theorem segClean_no_lf {sg : Seg} (h : segClean sg = true) :
    ∀ c ∈ sg.line ++ sg.pad, ¬(c = '\n') := by
  simp only [segClean, noNL, padOk, Bool.and_eq_true, List.all_eq_true] at h
  intro c hc
  rcases List.mem_append.mp hc with hm | hm
  · have := h.1 c hm
    simp only [Bool.and_eq_true, bne_iff_ne, ne_eq] at this
    exact this.1
  · have := h.2 c hm
    simp only [Bool.and_eq_true, bne_iff_ne, ne_eq] at this
    exact this.1.2

/-- The head of an assembled nonempty segment list is never LF, unless
the first segment is an LF-only blank. -/
theorem flattenSegs_head_ne_lf {sg : Seg} {rest : List Seg}
    (hclean : segClean sg = true) (hnb : ¬(lfBlank sg = true)) :
    ¬((flattenSegs (sg :: rest)).head? = some '\n') := by
  obtain ⟨line, pad, ending⟩ := sg
  cases hl : line with
  | cons c cs =>
    have hc : ¬(c = '\n') := by
      refine segClean_no_lf hclean c ?_
      simp [hl]
    simp only [flattenSegs, List.map_cons, List.flatten_cons, hl, List.cons_append,
      List.head?_cons]
    intro hcon
    exact hc (by injection hcon)
  | nil =>
    cases hp : pad with
    | cons c cs =>
      have hc : ¬(c = '\n') := by
        refine segClean_no_lf hclean c ?_
        simp [hp]
      simp only [flattenSegs, List.map_cons, List.flatten_cons, hl, hp, List.nil_append,
        List.cons_append, List.head?_cons]
      intro hcon
      exact hc (by injection hcon)
    | nil =>
      cases ending with
      | lf => exact absurd (by simp [lfBlank, hl, hp]) hnb
      | crlf => simp [flattenSegs, hl, hp, Ending.chars]
      | cr => simp [flattenSegs, hl, hp, Ending.chars]

/-- The assembled text per line after both replacements: every segment
contributes its body, its pad, and a single LF. -/
def flatLF (segs : List Seg) : List Char :=
  (segs.map (fun sg => sg.line ++ sg.pad ++ ['\n'])).flatten

theorem conv_flattenSegs (segs : List Seg) (hclean : segs.all segClean = true)
    (hwf : noMerge segs = true) :
    replaceCR (replaceCRLF (flattenSegs segs)) = flatLF segs := by
  induction segs with
  | nil => rfl
  | cons sg rest ih =>
    simp only [List.all_cons, Bool.and_eq_true] at hclean
    have hwfr : noMerge rest = true := by
      cases rest with
      | nil => rfl
      | cons s2 r2 =>
        simp only [noMerge, Bool.and_eq_true] at hwf
        exact hwf.2
    have hstep : flattenSegs (sg :: rest) =
        (sg.line ++ sg.pad) ++ (sg.ending.chars ++ flattenSegs rest) := by
      simp [flattenSegs]
    rw [hstep, replaceCRLF_append_clean (segClean_no_cr hclean.1)]
    have hid : replaceCR (sg.line ++ sg.pad) = sg.line ++ sg.pad :=
      replaceCR_clean (segClean_no_cr hclean.1)
    have htail : replaceCRLF (sg.ending.chars ++ flattenSegs rest) =
        '\n' :: replaceCRLF (flattenSegs rest)
        ∨ replaceCRLF (sg.ending.chars ++ flattenSegs rest) =
        '\r' :: replaceCRLF (flattenSegs rest) := by
      cases hend : sg.ending with
      | lf =>
        exact Or.inl (by
          simp only [Ending.chars, List.cons_append, List.nil_append]
          exact replaceCRLF_cons_ne (by decide) _)
      | crlf =>
        exact Or.inl (by simp [Ending.chars, replaceCRLF_crlf])
      | cr =>
        refine Or.inr ?_
        simp only [Ending.chars, List.cons_append, List.nil_append]
        refine replaceCRLF_cr _ ?_
        cases rest with
        | nil => simp [flattenSegs]
        | cons s2 r2 =>
          have hwf1 : (!(decide (sg.ending = Ending.cr)) || !(lfBlank s2)) = true := by
            simp only [noMerge, Bool.and_eq_true] at hwf
            exact hwf.1
          rw [hend] at hwf1
          simp at hwf1
          have hs2c : segClean s2 = true := by
            have h2 := hclean.2
            simp only [List.all_cons, Bool.and_eq_true] at h2
            exact h2.1
          exact flattenSegs_head_ne_lf hs2c (by simp [hwf1])
    have hflat : flatLF (sg :: rest) = (sg.line ++ sg.pad) ++ '\n' :: flatLF rest := by
      simp [flatLF]
    have hidl : replaceCR sg.line = sg.line :=
      replaceCR_clean (fun c hc => segClean_no_cr hclean.1 c (List.mem_append.mpr (Or.inl hc)))
    have hidp : replaceCR sg.pad = sg.pad :=
      replaceCR_clean (fun c hc => segClean_no_cr hclean.1 c (List.mem_append.mpr (Or.inr hc)))
    have hmap : ∀ (c : Char) (l : List Char),
        replaceCR ((sg.line ++ sg.pad) ++ c :: l) =
          (sg.line ++ sg.pad) ++ (if c = '\x0d' then '\n' else c) :: replaceCR l := by
      intro c l
      simp only [replaceCR, List.map_append, List.map_cons]
      rw [show List.map (fun c => if c = '\x0d' then '\n' else c) sg.line = sg.line from hidl,
        show List.map (fun c => if c = '\x0d' then '\n' else c) sg.pad = sg.pad from hidp]
    rcases htail with h | h <;>
      rw [h, hmap, ih hclean.2 hwfr, hflat] <;> simp

theorem splitLF_append {l : List Char} (h : ∀ c ∈ l, ¬(c = '\n')) (t : List Char) :
    splitLF (l ++ '\n' :: t) = l :: splitLF t := by
  induction l with
  | nil => simp [splitLF]
  | cons c rest ih =>
    simp only [List.mem_cons] at h
    rw [List.cons_append, splitLF.eq_def]
    simp only [if_neg (h c (Or.inl rfl))]
    rw [ih (fun x hx => h x (Or.inr hx))]

theorem splitLF_flatLF (segs : List Seg) (hclean : segs.all segClean = true) :
    splitLF (flatLF segs) = segs.map (fun sg => sg.line ++ sg.pad) ++ [[]] := by
  induction segs with
  | nil => rfl
  | cons sg rest ih =>
    simp only [List.all_cons, Bool.and_eq_true] at hclean
    have hstep : flatLF (sg :: rest) = (sg.line ++ sg.pad) ++ '\n' :: flatLF rest := by
      simp [flatLF]
    rw [hstep, splitLF_append (segClean_no_lf hclean.1), ih hclean.2]
    rfl

theorem dropWhile_append_all {α : Type} (p : α → Bool) {a : List α}
    (h : ∀ x ∈ a, p x = true) (b : List α) :
    (a ++ b).dropWhile p = b.dropWhile p := by
  induction a with
  | nil => rfl
  | cons x rest ih =>
    simp only [List.mem_cons] at h
    rw [List.cons_append, List.dropWhile_cons, if_pos (h x (Or.inl rfl))]
    exact ih (fun y hy => h y (Or.inr hy))

theorem rstripL_append_pad {l p : List Char} (hp : padOk p = true) :
    rstripL (l ++ p) = rstripL l := by
  unfold rstripL
  rw [List.reverse_append]
  rw [dropWhile_append_all pyIsSpace ?_ l.reverse]
  intro c hc
  simp only [List.mem_reverse] at hc
  simp only [padOk, List.all_eq_true] at hp
  have := hp c hc
  simp only [Bool.and_eq_true] at this
  exact this.1.1

theorem dropTrailingBlank_snoc_nil (xs : List (List Char)) :
    dropTrailingBlank (xs ++ [[]]) = dropTrailingBlank xs := by
  unfold dropTrailingBlank
  rw [List.reverse_append]
  rfl

/-- C7: the golden-comparison normalization maps CRLF and lone CR to LF,
right-trims every line, and drops trailing blank lines — so a text
assembled from line bodies with arbitrary per-line endings, arbitrary
trailing whitespace, and trailing blank segments normalizes to the
canonical join of its right-trimmed bodies; in particular
`"line1\r\n"` and `"line1\n"` normalize identically. -/
theorem normalize_text_spec :
    (∀ segs : List Seg, segs.all segClean = true → noMerge segs = true →
      normalize_text (String.mk (flattenSegs segs)) =
        String.mk (joinLF (dropTrailingBlank (segs.map (fun sg => rstripL sg.line)))))
    ∧ normalize_text "line1\r\n" = normalize_text "line1\n" := by
  constructor
  · intro segs hclean hwf
    unfold normalize_text
    refine congrArg String.mk ?_
    show joinLF (dropTrailingBlank
      ((splitLF (replaceCR (replaceCRLF (flattenSegs segs)))).map rstripL)) = _
    rw [conv_flattenSegs segs hclean hwf, splitLF_flatLF segs hclean, List.map_append,
      List.map_map]
    have h1 : (segs.map (rstripL ∘ fun sg => sg.line ++ sg.pad)) =
        segs.map (fun sg => rstripL sg.line) := by
      apply List.map_congr_left
      intro sg hsg
      have hc := List.all_eq_true.mp hclean sg hsg
      simp only [Bool.and_eq_true, segClean] at hc
      exact rstripL_append_pad hc.2
    rw [h1]
    show joinLF (dropTrailingBlank (_ ++ [[]])) = _
    rw [dropTrailingBlank_snoc_nil]
  · rfl

/-- C7 witness: a CRLF-ended padded line against its canonical form. -/
theorem normalize_text_spec_witness :
    normalize_text (String.mk (flattenSegs [⟨"line1".data, [' '], Ending.crlf⟩])) =
      String.mk (joinLF (dropTrailingBlank
        (([⟨"line1".data, [' '], Ending.crlf⟩] : List Seg).map (fun sg => rstripL sg.line)))) :=
  normalize_text_spec.1 [⟨"line1".data, [' '], Ending.crlf⟩] (by decide) (by decide)

/-! ## C3: strict rendering -/

/-- The two scans walk the template identically: when the variable scan
succeeds, rendering succeeds if every referenced name is bound and fails
if any referenced name is unbound. -/
theorem scan_render (params : Dict) :
    ∀ (fuel : Nat) (s : List Char) (vs : List String),
      varsFuel fuel s = .ok vs →
      ((∀ v ∈ vs, (dlookup params v).isSome = true) →
        ∃ out, renderFuel params fuel s = .ok out)
      ∧ (∀ v ∈ vs, dlookup params v = Option.none →
        ∃ e, renderFuel params fuel s = .error e) := by
  intro fuel
  induction fuel with
  | zero =>
    intro s vs h
    exact absurd h (by simp [varsFuel])
  | succ fuel ih =>
    intro s vs h
    cases s with
    | nil =>
      simp only [varsFuel] at h
      injection h with h'
      subst h'
      exact ⟨fun _ => ⟨[], rfl⟩, fun v hv => absurd hv (List.not_mem_nil v)⟩
    | cons c rest =>
      by_cases hc : c = lbrace
      · subst hc
        cases rest with
        | nil =>
          simp only [varsFuel, if_pos rfl] at h
          injection h with h'
          subst h'
          exact ⟨fun _ => ⟨[lbrace], by simp [renderFuel]⟩,
            fun v hv => absurd hv (List.not_mem_nil v)⟩
        | cons c2 rest2 =>
          by_cases hc2 : c2 = lbrace
          · subst hc2
            have h1 : (match parseVar rest2 with
              | some (name, rest3) => Except.map (fun vs => name :: vs) (varsFuel fuel rest3)
              | Option.none => Except.error "Template syntax error") = Except.ok vs := h
            cases hpv : parseVar rest2 with
            | none =>
              rw [hpv] at h1
              exact absurd h1 (by simp)
            | some pr =>
              obtain ⟨name, rest3⟩ := pr
              rw [hpv] at h1
              have h2 : Except.map (fun vs => name :: vs) (varsFuel fuel rest3) =
                  Except.ok vs := h1
              cases hv3 : varsFuel fuel rest3 with
              | error e =>
                rw [hv3] at h2
                exact absurd h2 (by simp [Except.map])
              | ok vs' =>
                rw [hv3] at h2
                simp only [Except.map] at h2
                injection h2 with h'
                subst h'
                obtain ⟨hall, herr⟩ := ih rest3 vs' hv3
                constructor
                · intro hsome
                  have hname := hsome name (by simp)
                  obtain ⟨val, hval⟩ := Option.isSome_iff_exists.mp hname
                  obtain ⟨out, hout⟩ := hall (fun v hv => hsome v (by simp [hv]))
                  exact ⟨pyStrOf val ++ out,
                    by simp [renderFuel, hpv, hval, hout, Except.map]⟩
                · intro v hv hnone
                  rcases List.mem_cons.mp hv with rfl | hv'
                  · refine ⟨"Undefined variable in template: " ++ v ++ " is undefined", ?_⟩
                    simp [renderFuel, hpv, hnone]
                  · cases hl : dlookup params name with
                    | none =>
                      refine ⟨"Undefined variable in template: " ++ name ++ " is undefined", ?_⟩
                      simp [renderFuel, hpv, hl]
                    | some val =>
                      obtain ⟨e, he⟩ := herr v hv' hnone
                      exact ⟨e, by simp [renderFuel, hpv, hl, he, Except.map]⟩
          · simp only [varsFuel, if_pos rfl, if_neg hc2] at h
            obtain ⟨hall, herr⟩ := ih (c2 :: rest2) vs h
            constructor
            · intro hsome
              obtain ⟨out, hout⟩ := hall hsome
              exact ⟨lbrace :: out, by simp [renderFuel, if_neg hc2, hout, Except.map]⟩
            · intro v hv hnone
              obtain ⟨e, he⟩ := herr v hv hnone
              exact ⟨e, by simp [renderFuel, if_neg hc2, he, Except.map]⟩
      · simp only [varsFuel, if_neg hc] at h
        obtain ⟨hall, herr⟩ := ih rest vs h
        constructor
        · intro hsome
          obtain ⟨out, hout⟩ := hall hsome
          exact ⟨c :: out, by simp [renderFuel, if_neg hc, hout, Except.map]⟩
        · intro v hv hnone
          obtain ⟨e, he⟩ := herr v hv hnone
          exact ⟨e, by simp [renderFuel, if_neg hc, he, Except.map]⟩

/-- C3: rendering fails whenever the template references a name absent
from the parameter mapping — never substituting a blank — succeeds when
every referenced name is present, and substitutes values exactly:
`render("Hello {{ name }}!", {"name": "World"})` is `"Hello World!"`
(braces written via their character codes). -/
theorem render_strict_spec :
    (∀ (t : String) (params : Dict) (vs : List String) (v : String),
      varsOf t = .ok vs → v ∈ vs → dlookup params v = Option.none →
      ∃ e, render t params = .error e)
    ∧ (∀ (t : String) (params : Dict) (vs : List String),
      varsOf t = .ok vs → (∀ v ∈ vs, (dlookup params v).isSome = true) →
      ∃ out, render t params = .ok out)
    ∧ render "Hello \x7b\x7b name \x7d\x7d!" [("name", .str "World")] = .ok "Hello World!" := by
  refine ⟨?_, ?_, rfl⟩
  · intro t params vs v hvars hv hnone
    obtain ⟨e, he⟩ := (scan_render params _ _ _ hvars).2 v hv hnone
    unfold render
    rw [he]
    exact ⟨_, rfl⟩
  · intro t params vs hvars hsome
    obtain ⟨out, hout⟩ := (scan_render params _ _ _ hvars).1 hsome
    unfold render
    rw [hout]
    exact ⟨_, rfl⟩

/-- C3 witness: the failure conjunct at a concrete template whose
referenced name is absent from the parameters. -/
theorem render_strict_spec_witness :
    ∃ e, render "Hi \x7b\x7b name \x7d\x7d" [("other", .int 1)] = .error e :=
  render_strict_spec.1 "Hi \x7b\x7b name \x7d\x7d" [("other", .int 1)] ["name"] "name"
    rfl (by decide) rfl

/-! ## C10: falsy YAML documents load as the empty mapping -/

/-- C10: loading a preset file, or a non-JSON parameters file, whose
YAML document is falsy (empty file, `null` document, ...) returns the
empty mapping — not `None` and not an error. -/
theorem yaml_falsy_empty_spec :
    (∀ (fs : Store) (name preset : String) (d : TemplateDir) (ef : ExampleFile) (w : PyVal),
      dlookup fs.templates name = some d →
      d.examples.find? (fun ef => ef.filename = preset ++ ".yaml") = some ef →
      ef.yamlLoad = .ok w → pyTruthy w = false →
      load_preset fs name preset = .ok (.dict []))
    ∧ (∀ (pf : ParamsFile) (w : PyVal),
      ¬((pySplitExt pf.path).2 = ".json") → pf.yamlLoad = .ok w → pyTruthy w = false →
      load_params_file (some pf) = .ok (.dict [])) := by
  constructor
  · intro fs name preset d ef w hdir hfind hyaml htruthy
    unfold load_preset get_template_dir
    rw [hdir]
    show (match d.examples.find? (fun ef => ef.filename = preset ++ ".yaml") with
      | some ef => load_preset.loadOne ef
      | Option.none => _) = _
    rw [hfind]
    simp [load_preset.loadOne, hyaml, yamlOrEmpty, htruthy]
  · intro pf w hsuffix hyaml htruthy
    unfold load_params_file
    simp [hsuffix, hyaml, yamlOrEmpty, htruthy]

/-- C10 witness: a template whose preset file holds a null YAML
document, and a `.yaml` parameters file holding `false`. -/
theorem yaml_falsy_empty_spec_witness :
    load_preset ⟨[("t", ⟨true, "x", Option.none, [⟨"p.yaml", .ok .none⟩], Option.none⟩)]⟩
      "t" "p" = .ok (.dict [])
    ∧ load_params_file (some ⟨"a.yaml", "false", .ok (.bool false)⟩) = .ok (.dict []) :=
  ⟨yaml_falsy_empty_spec.1 ⟨[("t", ⟨true, "x", Option.none, [⟨"p.yaml", .ok .none⟩],
      Option.none⟩)]⟩ "t" "p" _ _ _ rfl rfl rfl rfl,
   yaml_falsy_empty_spec.2 ⟨"a.yaml", "false", .ok (.bool false)⟩ _ (by decide) rfl rfl⟩

/-! ## C6: the golden-file check -/

theorem findFirstDiff_eq_spec (rs : List String) :
    ∀ (es : List String) (i : Nat),
      findFirstDiff i rs es = (firstDiffSpec (rs.zip es)).map (fun x => (i + x.1, x.2)) := by
  induction rs with
  | nil => intro es i; cases es <;> rfl
  | cons r rs ih =>
    intro es i
    cases es with
    | nil => rfl
    | cons e es =>
      by_cases h : r = e
      · subst h
        have h1 : findFirstDiff i (r :: rs) (r :: es) = findFirstDiff (i + 1) rs es := by
          simp [findFirstDiff]
        rw [h1, ih es (i + 1)]
        have h2 : firstDiffSpec ((r :: rs).zip (r :: es)) =
            (firstDiffSpec (rs.zip es)).map (fun x => (x.1 + 1, x.2)) := by
          show (if r = r then (firstDiffSpec (rs.zip es)).map (fun x => (x.1 + 1, x.2))
            else some (0, r, r)) = _
          rw [if_pos rfl]
        rw [h2]
        cases hfd : firstDiffSpec (rs.zip es) with
        | none => rfl
        | some x =>
          obtain ⟨j, pr⟩ := x
          show some (i + 1 + j, pr) = some (i + (j + 1), pr)
          have h3 : i + 1 + j = i + (j + 1) := by omega
          rw [h3]
      · have h1 : findFirstDiff i (r :: rs) (e :: es) = some (i, r, e) := by
          simp [findFirstDiff, h]
        rw [h1]
        simp [List.zip_cons_cons, firstDiffSpec, h]

theorem goldenDiffDetails_eq (rl el : List String) :
    goldenDiffDetails rl el =
      (match firstDiffSpec (rl.zip el) with
       | some (i, r, e) =>
         ["First difference at line " ++ toString (i + 1) ++ ":",
          "  Expected: " ++ truncate80 e,
          "  Got:      " ++ truncate80 r]
       | Option.none =>
         if rl.length ≠ el.length then
           ["Line count mismatch: expected " ++ toString el.length ++ ", got " ++
             toString rl.length]
         else []) := by
  unfold goldenDiffDetails
  rw [findFirstDiff_eq_spec rl el 0]
  cases firstDiffSpec (rl.zip el) with
  | none => rfl
  | some x =>
    obtain ⟨i, r, e⟩ := x
    simp

/-- The implementation comparison, written with the spec-side details. -/
theorem goldenCompare_impl_eq (name rendered g : String) :
    goldenCompareSpec name rendered g =
      (if normalize_text rendered = normalize_text g then
        (⟨name, "golden_test", true, "Golden test passed", []⟩ : ValidationResult)
       else ⟨name, "golden_test", false, "Golden test failed - output does not match expected",
         goldenDiffDetails ((splitLF (normalize_text rendered).data).map String.mk)
           ((splitLF (normalize_text g).data).map String.mk)⟩) := by
  unfold goldenCompareSpec
  by_cases heq : normalize_text rendered = normalize_text g
  · simp [heq]
  · simp only [if_neg heq]
    rw [goldenDiffDetails_eq]

/-- C6: for every template directory found in the store, the golden
check fails (is not skipped) with a `golden_test` result naming the
fixed path `templates/<name>/tests/render_golden.md` when the golden
file is missing; otherwise it renders per the spec — `default` preset if
present, schema defaults alone otherwise — and produces exactly the
spec-side comparison of the normalized texts, whose mismatch details are
the first differing line truncated to 80 characters per side, or a
line-count mismatch when no zipped line differs; a render-pipeline
`TemplateError` is captured as a failed result. -/
theorem validate_golden_test_spec (ext : Ext) (fs : Store) (name : String) (d : TemplateDir)
    (hdir : dlookup fs.templates name = some d) :
    (d.goldenText = Option.none →
      validate_golden_test ext fs name = .ok ⟨name, "golden_test", false,
        "Golden file not found: templates/" ++ name ++ "/tests/render_golden.md",
        ["Create tests/render_golden.md with expected output"]⟩)
    ∧ (∀ g rendered, d.goldenText = some g →
      goldenRenderSpec ext fs name = .ok rendered →
      validate_golden_test ext fs name = .ok (goldenCompareSpec name rendered g))
    ∧ (∀ g m es, d.goldenText = some g →
      goldenRenderSpec ext fs name = .error (.template m es) →
      validate_golden_test ext fs name = .ok ⟨name, "golden_test", false,
        "Render failed: " ++ m, []⟩) := by
  have hget : get_template_dir fs name = .ok d := by
    unfold get_template_dir
    rw [hdir]
  refine ⟨?_, ?_, ?_⟩
  · intro hg
    unfold validate_golden_test
    simp only [hget, except_bind_ok, hg, except_pure_eq]
  · intro g rendered hg hrender
    have hrender' : (do
        let template_text ← load_template fs name
        let schema ← load_schema fs name
        let presets ← list_presets fs name
        let merged ← goldenMerged fs name schema presets
        validate_params ext.ie schema merged
        render template_text merged : Except PyErr String) = .ok rendered := hrender
    unfold validate_golden_test
    simp only [hget, except_bind_ok, hg]
    rw [hrender', goldenCompare_impl_eq]
    by_cases heq : normalize_text rendered = normalize_text g
    · simp [heq, except_pure_eq]
    · simp [heq, except_pure_eq]
  · intro g m es hg hrender
    have hrender' : (do
        let template_text ← load_template fs name
        let schema ← load_schema fs name
        let presets ← list_presets fs name
        let merged ← goldenMerged fs name schema presets
        validate_params ext.ie schema merged
        render template_text merged : Except PyErr String) = .error (.template m es) := hrender
    unfold validate_golden_test
    simp only [hget, except_bind_ok, hg]
    rw [hrender']
    rfl

/-- C6 witness: the missing-golden conjunct at a one-template store. -/
theorem validate_golden_test_spec_witness :
    validate_golden_test ⟨fun _ _ => [], fun _ => Option.none⟩
      ⟨[("t", ⟨true, "x", Option.none, [], Option.none⟩)]⟩ "t" =
      .ok ⟨"t", "golden_test", false,
        "Golden file not found: templates/t/tests/render_golden.md",
        ["Create tests/render_golden.md with expected output"]⟩ :=
  (validate_golden_test_spec ⟨fun _ _ => [], fun _ => Option.none⟩
    ⟨[("t", ⟨true, "x", Option.none, [], Option.none⟩)]⟩ "t"
    ⟨true, "x", Option.none, [], Option.none⟩ rfl).1 rfl

/-! ## C5: exception flow through the doctor

The claim is that `validate_all_templates` never lets an exception
escape.  The code refutes it: template discovery (`list_templates`)
loads every discovered template's schema for its description, and a
missing or malformed `schema.json` there raises a `TemplateError` before
any per-check capture can run.  Below: the counterexample, and the
amended guarantee — with discovery able to load every discovered
template's schema (well-formed as a draft-07 property mapping) and every
preset document a mapping or falsy, no exception escapes. -/

/-- The outcome is a value satisfying `p`, or a `TemplateError` (which
the doctor's `except TemplateError` blocks capture) — never an
exception outside that hierarchy. -/
def okOrTemplate {α : Type} (x : Except PyErr α) (p : α → Prop) : Prop :=
  match x with
  | .ok a => p a
  | .error (.template _ _) => True
  | .error (.typeErr _) => False

theorem okOrTemplate_bind {α β : Type} {x : Except PyErr α} {p : α → Prop}
    {q : β → Prop} {f : α → Except PyErr β}
    (hx : okOrTemplate x p) (hf : ∀ a, p a → okOrTemplate (f a) q) :
    okOrTemplate (x >>= f) q := by
  cases x with
  | ok a => exact hf a hx
  | error e =>
    cases e with
    | template m es => exact trivial
    | typeErr m => exact hx.elim

/-- A schema value the merging and coverage code can walk without
raising outside `TemplateError`: a mapping whose `properties` (when
present) is a mapping of mapping-valued property schemas. -/
def schemaWFb (v : PyVal) : Bool :=
  match v with
  | .dict kvs =>
    match dlookup kvs "properties" with
    | Option.none => true
    | some (.dict props) => props.all (fun kv => isDict kv.2)
    | some _ => false
  | _ => false

/-- An example file whose YAML document (when it loads) is a mapping or
falsy, so `dict.update` accepts it. -/
def exampleOkb (ef : ExampleFile) : Bool :=
  match ef.yamlLoad with
  | .ok w => isDict w || !(pyTruthy w)
  | .error _ => true

/-- A template directory the doctor can walk: when discovered (it has a
`template.md`), its schema parses and is well-formed, and its example
files are benign. -/
def dirOkb (d : TemplateDir) : Bool :=
  (if d.hasTemplateMd then
    (match d.schemaText with
     | some txt =>
       (match jsonLoads txt.data with
        | some sv => schemaWFb sv
        | Option.none => false)
     | Option.none => false)
   else true) && d.examples.all exampleOkb

/-- Every template directory of the store is benign. -/
def storeOkb (fs : Store) : Bool := fs.templates.all (fun nd => dirOkb nd.2)

theorem validate_params_shape (ie : IterErrors) (sv : PyVal) (params : Dict) :
    okOrTemplate (validate_params ie sv params) (fun _ => True) := by
  unfold validate_params
  by_cases h : (ie sv params).isEmpty <;> simp [h, okOrTemplate]

theorem render_shape (t : String) (params : Dict) :
    okOrTemplate (render t params) (fun _ => True) := by
  unfold render
  cases hr : renderFuel params (t.data.length + 1) t.data <;> simp [okOrTemplate]

theorem load_template_shape (fs : Store) (name : String) :
    okOrTemplate (load_template fs name) (fun _ => True) := by
  unfold load_template get_template_dir
  cases hd : dlookup fs.templates name with
  | none => simp [okOrTemplate, except_bind_err]
  | some d =>
    by_cases hmd : d.hasTemplateMd <;>
      simp [hmd, okOrTemplate, except_bind_ok, except_pure_eq]

theorem load_schema_shape (fs : Store) (name : String) :
    okOrTemplate (load_schema fs name) (fun _ => True) := by
  unfold load_schema get_template_dir
  cases hd : dlookup fs.templates name with
  | none => simp [okOrTemplate, except_bind_err]
  | some d =>
    cases ht : d.schemaText with
    | none => simp [okOrTemplate, except_bind_ok, ht]
    | some txt =>
      cases hj : jsonLoads txt.data <;>
        simp [okOrTemplate, except_bind_ok, except_pure_eq, ht, hj]

theorem get_template_variables_shape (t : String) :
    okOrTemplate (get_template_variables t) (fun _ => True) := by
  unfold get_template_variables
  cases hv : varsOf t <;> simp [okOrTemplate]

theorem schemaWFb_dict {sv : PyVal} (h : schemaWFb sv = true) :
    ∃ kvs, sv = PyVal.dict kvs := by
  cases sv <;> simp_all [schemaWFb]

theorem get_schema_defaults_ok {sv : PyVal} (h : schemaWFb sv = true) :
    ∃ ds, get_schema_defaults sv = .ok ds := by
  obtain ⟨kvs, rfl⟩ := schemaWFb_dict h
  have hbody : get_schema_defaults (PyVal.dict kvs) =
      (match (dlookup kvs "properties").getD (PyVal.dict []) with
       | PyVal.dict ps => ps.foldlM (fun acc kv => do
           if (← hasDefault kv.2) then
             let v ← getDefault kv.2
             pure (dinsert acc kv.1 v)
           else pure acc) []
       | _ => .error (.typeErr "items on non-mapping properties")) := rfl
  cases hp : dlookup kvs "properties" with
  | none =>
    refine ⟨[], ?_⟩
    rw [hbody, hp]
    rfl
  | some p =>
    have h2 : (match dlookup kvs "properties" with
      | Option.none => true
      | some (.dict props) => props.all (fun kv => isDict kv.2)
      | some _ => false) = true := h
    rw [hp] at h2
    cases p with
    | dict props =>
      refine ⟨defaultsFold props [], ?_⟩
      rw [hbody, hp]
      exact defaults_foldlM_eq props h2 []
    | none => exact absurd h2 (by simp)
    | bool b => exact absurd h2 (by simp)
    | int n => exact absurd h2 (by simp)
    | float l => exact absurd h2 (by simp)
    | str s => exact absurd h2 (by simp)
    | list xs => exact absurd h2 (by simp)

theorem get_schema_variables_ok {sv : PyVal} (h : schemaWFb sv = true) :
    ∃ vs, get_schema_variables sv = .ok vs := by
  obtain ⟨kvs, rfl⟩ := schemaWFb_dict h
  have hbody : get_schema_variables (PyVal.dict kvs) =
      (match (dlookup kvs "properties").getD (PyVal.dict []) with
       | PyVal.dict ps => pure (ps.map Prod.fst)
       | _ => .error (.typeErr "keys on non-mapping properties")) := rfl
  cases hp : dlookup kvs "properties" with
  | none =>
    refine ⟨[], ?_⟩
    rw [hbody, hp]
    rfl
  | some p =>
    have h2 : (match dlookup kvs "properties" with
      | Option.none => true
      | some (.dict props) => props.all (fun kv => isDict kv.2)
      | some _ => false) = true := h
    rw [hp] at h2
    cases p with
    | dict props =>
      refine ⟨props.map Prod.fst, ?_⟩
      rw [hbody, hp]
      rfl
    | none => exact absurd h2 (by simp)
    | bool b => exact absurd h2 (by simp)
    | int n => exact absurd h2 (by simp)
    | float l => exact absurd h2 (by simp)
    | str s => exact absurd h2 (by simp)
    | list xs => exact absurd h2 (by simp)

theorem applyLayer_ok (m : Dict) {w : PyVal}
    (h : isDict w = true ∨ pyTruthy w = false) :
    ∃ m', applyLayer m (some w) = .ok m' := by
  cases w with
  | dict kvs =>
    by_cases ht : pyTruthy (PyVal.dict kvs) = true
    · exact ⟨dupdate m kvs, by simp [applyLayer, ht]⟩
    · simp only [Bool.not_eq_true] at ht
      exact ⟨m, by simp [applyLayer, ht]⟩
  | none => exact ⟨m, rfl⟩
  | bool b =>
    rcases h with hd | hf
    · exact absurd hd (by simp [isDict])
    · exact ⟨m, by simp [applyLayer, hf]⟩
  | int n =>
    rcases h with hd | hf
    · exact absurd hd (by simp [isDict])
    · exact ⟨m, by simp [applyLayer, hf]⟩
  | float lit =>
    rcases h with hd | hf
    · exact absurd hd (by simp [isDict])
    · exact ⟨m, by simp [applyLayer, hf]⟩
  | str s =>
    rcases h with hd | hf
    · exact absurd hd (by simp [isDict])
    · exact ⟨m, by simp [applyLayer, hf]⟩
  | list xs =>
    rcases h with hd | hf
    · exact absurd hd (by simp [isDict])
    · exact ⟨m, by simp [applyLayer, hf]⟩

theorem merge_params_ok {sv : PyVal} (hwf : schemaWFb sv = true) (pp : Option PyVal)
    (hpp : ∀ w, pp = some w → (isDict w = true ∨ pyTruthy w = false)) :
    ∃ m, merge_params sv pp Option.none Option.none = .ok m := by
  obtain ⟨ds, hds⟩ := get_schema_defaults_ok hwf
  unfold merge_params
  rw [hds]
  simp only [except_bind_ok]
  cases pp with
  | none => exact ⟨ds, rfl⟩
  | some w =>
    obtain ⟨m', hm'⟩ := applyLayer_ok ds (hpp w rfl)
    rw [hm']
    exact ⟨m', rfl⟩

theorem load_schema_ok (fs : Store) (name : String) (d : TemplateDir)
    (hdir : dlookup fs.templates name = some d) (hmd : d.hasTemplateMd = true)
    (hd : dirOkb d = true) :
    ∃ sv, load_schema fs name = .ok sv ∧ schemaWFb sv = true := by
  unfold dirOkb at hd
  rw [hmd] at hd
  simp only [if_true, Bool.and_eq_true] at hd
  have h1 : (match d.schemaText with
    | some txt =>
      (match jsonLoads txt.data with
       | some sv => schemaWFb sv
       | Option.none => false)
    | Option.none => false) = true := hd.1
  cases ht : d.schemaText with
  | none =>
    rw [ht] at h1
    exact absurd h1 (by simp)
  | some txt =>
    rw [ht] at h1
    have h2 : (match jsonLoads txt.data with
      | some sv => schemaWFb sv
      | Option.none => false) = true := h1
    cases hj : jsonLoads txt.data with
    | none =>
      rw [hj] at h2
      exact absurd h2 (by simp)
    | some sv =>
      rw [hj] at h2
      refine ⟨sv, ?_, h2⟩
      unfold load_schema get_template_dir
      rw [hdir]
      simp [except_bind_ok, ht, hj, except_pure_eq]

theorem list_presets_ok (fs : Store) (name : String) (d : TemplateDir)
    (hdir : dlookup fs.templates name = some d) :
    ∃ ps, list_presets fs name = .ok ps := by
  unfold list_presets get_template_dir
  rw [hdir]
  exact ⟨_, rfl⟩

theorem load_preset_shape (fs : Store) (name pn : String) (d : TemplateDir)
    (hdir : dlookup fs.templates name = some d)
    (hex : d.examples.all exampleOkb = true) :
    okOrTemplate (load_preset fs name pn)
      (fun w => isDict w = true ∨ pyTruthy w = false) := by
  have hload : ∀ ef : ExampleFile, ef ∈ d.examples →
      okOrTemplate (load_preset.loadOne ef)
        (fun w => isDict w = true ∨ pyTruthy w = false) := by
    intro ef hmem
    have hok : exampleOkb ef = true := List.all_eq_true.mp hex ef hmem
    have h2 : (match ef.yamlLoad with
      | .ok w => isDict w || !(pyTruthy w)
      | .error _ => true) = true := hok
    unfold load_preset.loadOne
    cases hy : ef.yamlLoad with
    | error m => simp [okOrTemplate]
    | ok w =>
      rw [hy] at h2
      show okOrTemplate (.ok (yamlOrEmpty w)) _
      unfold yamlOrEmpty
      by_cases ht : pyTruthy w = true
      · rw [if_pos ht]
        show isDict w = true ∨ pyTruthy w = false
        simp only [Bool.or_eq_true, Bool.not_eq_true'] at h2
        rcases h2 with h2 | h2
        · exact Or.inl h2
        · rw [ht] at h2
          exact absurd h2 (by simp)
      · rw [if_neg ht]
        exact Or.inl rfl
  unfold load_preset get_template_dir
  rw [hdir]
  simp only [except_bind_ok]
  cases hf : d.examples.find? (fun ef => ef.filename = pn ++ ".yaml") with
  | some ef => exact hload ef (List.mem_of_find?_eq_some hf)
  | none =>
    cases hf2 : d.examples.find? (fun ef => ef.filename = pn ++ ".yml") with
    | some ef => exact hload ef (List.mem_of_find?_eq_some hf2)
    | none => simp [okOrTemplate]

theorem foldlM_ok {α β : Type} (f : β → α → Except PyErr β) (l : List α)
    (h : ∀ b a, a ∈ l → ∃ b', f b a = .ok b') :
    ∀ acc, ∃ r, l.foldlM f acc = .ok r := by
  induction l with
  | nil => intro acc; exact ⟨acc, rfl⟩
  | cons x xs ih =>
    intro acc
    obtain ⟨b', hb'⟩ := h acc x (by simp)
    obtain ⟨r, hr⟩ := ih (fun b a ha => h b a (by simp [ha])) b'
    refine ⟨r, ?_⟩
    have hstep : (x :: xs).foldlM f acc = (f acc x >>= fun b => xs.foldlM f b) := rfl
    rw [hstep, hb', except_bind_ok, hr]

theorem validate_schema_json_ok (ext : Ext) (fs : Store) (name : String) (d : TemplateDir)
    (hdir : dlookup fs.templates name = some d) :
    ∃ r, validate_schema_json ext fs name = .ok r := by
  unfold validate_schema_json get_template_dir
  rw [hdir]
  simp only [except_bind_ok]
  cases ht : d.schemaText with
  | none => exact ⟨_, rfl⟩
  | some txt =>
    show ∃ r, (match jsonLoads txt.data with
      | Option.none =>
        pure (⟨name, "schema_json", false, "Invalid JSON", []⟩ : ValidationResult)
      | some schema =>
        match ext.cs schema with
        | some e => pure ⟨name, "schema_json", false, "Invalid JSON Schema: " ++ e, []⟩
        | Option.none => pure ⟨name, "schema_json", true, "Valid JSON Schema", []⟩
      : Except PyErr ValidationResult) = .ok r
    cases hj : jsonLoads txt.data with
    | none => exact ⟨_, rfl⟩
    | some sv =>
      show ∃ r, (match ext.cs sv with
        | some e =>
          pure (⟨name, "schema_json", false, "Invalid JSON Schema: " ++ e, []⟩ : ValidationResult)
        | Option.none => pure ⟨name, "schema_json", true, "Valid JSON Schema", []⟩
        : Except PyErr ValidationResult) = .ok r
      cases hcs : ext.cs sv with
      | none => exact ⟨_, rfl⟩
      | some e => exact ⟨_, rfl⟩

theorem examples_ok_of_dirOkb {d : TemplateDir} (hmd : d.hasTemplateMd = true)
    (hd : dirOkb d = true) : d.examples.all exampleOkb = true := by
  unfold dirOkb at hd
  rw [hmd] at hd
  simp only [if_true, Bool.and_eq_true] at hd
  exact hd.2

theorem preset_pipeline_shape (ext : Ext) (fs : Store) (name pn : String) (d : TemplateDir)
    (sv : PyVal) (hdir : dlookup fs.templates name = some d)
    (hex : d.examples.all exampleOkb = true) (hwf : schemaWFb sv = true) :
    okOrTemplate (do
      let preset_params ← load_preset fs name pn
      let merged ← merge_params sv (some preset_params) Option.none Option.none
      validate_params ext.ie sv merged : Except PyErr Unit) (fun _ => True) := by
  refine okOrTemplate_bind (load_preset_shape fs name pn d hdir hex) ?_
  intro pp hpp
  have hmerge : okOrTemplate (merge_params sv (some pp) Option.none Option.none)
      (fun _ : Dict => True) := by
    obtain ⟨mm, hmm⟩ := merge_params_ok hwf (some pp) (fun w hw => by cases hw; exact hpp)
    rw [hmm]
    exact trivial
  exact okOrTemplate_bind hmerge (fun u _ => validate_params_shape ext.ie sv u)

theorem validate_presets_ok (ext : Ext) (fs : Store) (name : String) (d : TemplateDir)
    (hdir : dlookup fs.templates name = some d) (hmd : d.hasTemplateMd = true)
    (hd : dirOkb d = true) :
    ∃ rs, validate_presets ext fs name = .ok rs := by
  obtain ⟨sv, hsv, hwf⟩ := load_schema_ok fs name d hdir hmd hd
  have hex := examples_ok_of_dirOkb hmd hd
  unfold validate_presets
  rw [hsv]
  show ∃ rs, (do
    let presets ← list_presets fs name
    if presets.isEmpty then
      pure [⟨name, "presets", true, "No presets to validate", []⟩]
    else
      presets.foldlM (fun acc pn => do
        match (do
            let preset_params ← load_preset fs name pn
            let merged ← merge_params sv (some preset_params) Option.none Option.none
            validate_params ext.ie sv merged : Except PyErr Unit) with
        | .ok _ => pure (acc ++ [⟨name, "preset:" ++ pn, true, "Valid", []⟩])
        | .error (.template m _) => pure (acc ++ [⟨name, "preset:" ++ pn, false, m, []⟩])
        | .error e => .error e) [] : Except PyErr (List ValidationResult)) = .ok rs
  obtain ⟨ps, hps⟩ := list_presets_ok fs name d hdir
  rw [hps]
  simp only [except_bind_ok]
  by_cases hemp : ps.isEmpty
  · rw [if_pos hemp]
    exact ⟨_, rfl⟩
  · rw [if_neg hemp]
    apply foldlM_ok
    intro acc pn _
    have hpipe := preset_pipeline_shape ext fs name pn d sv hdir hex hwf
    cases hpl : (do
        let preset_params ← load_preset fs name pn
        let merged ← merge_params sv (some preset_params) Option.none Option.none
        validate_params ext.ie sv merged : Except PyErr Unit) with
    | ok u =>
      exact ⟨_, rfl⟩
    | error e =>
      cases e with
      | template m es =>
        exact ⟨_, rfl⟩
      | typeErr m =>
        rw [hpl] at hpipe
        exact hpipe.elim

theorem load_template_ok (fs : Store) (name : String) (d : TemplateDir)
    (hdir : dlookup fs.templates name = some d) (hmd : d.hasTemplateMd = true) :
    load_template fs name = .ok d.templateText := by
  unfold load_template get_template_dir
  rw [hdir]
  simp [hmd, except_bind_ok, except_pure_eq]

theorem validate_variable_coverage_ok (fs : Store) (name : String) (d : TemplateDir)
    (hdir : dlookup fs.templates name = some d) (hmd : d.hasTemplateMd = true)
    (hd : dirOkb d = true) :
    ∃ r, validate_variable_coverage fs name = .ok r := by
  obtain ⟨sv, hsv, hwf⟩ := load_schema_ok fs name d hdir hmd hd
  have htm := load_template_ok fs name d hdir hmd
  unfold validate_variable_coverage
  simp only [htm, except_bind_ok, hsv, except_pure_eq]
  cases hgv : get_template_variables d.templateText with
  | error e =>
    cases e with
    | template m es => exact ⟨_, rfl⟩
    | typeErr m =>
      have hsh := get_template_variables_shape d.templateText
      rw [hgv] at hsh
      exact hsh.elim
  | ok tvars =>
    obtain ⟨svars, hsvars⟩ := get_schema_variables_ok hwf
    simp only [hsvars, except_bind_ok]
    split
    · exact ⟨_, rfl⟩
    · exact ⟨_, rfl⟩

theorem validate_template_renders_ok (ext : Ext) (fs : Store) (name : String)
    (d : TemplateDir) (hdir : dlookup fs.templates name = some d)
    (hmd : d.hasTemplateMd = true) (hd : dirOkb d = true) :
    ∃ rs, validate_template_renders ext fs name = .ok rs := by
  obtain ⟨sv, hsv, hwf⟩ := load_schema_ok fs name d hdir hmd hd
  have hex := examples_ok_of_dirOkb hmd hd
  have htm := load_template_ok fs name d hdir hmd
  unfold validate_template_renders
  simp only [htm, except_bind_ok, hsv, except_pure_eq]
  obtain ⟨ps, hps⟩ := list_presets_ok fs name d hdir
  simp only [hps, except_bind_ok]
  by_cases hemp : ps.isEmpty
  · rw [if_pos hemp]
    have hpipe : okOrTemplate (do
        let merged ← merge_params sv Option.none Option.none Option.none
        validate_params ext.ie sv merged
        let _ ← render d.templateText merged
        Except.ok () : Except PyErr Unit) (fun _ => True) := by
      have h1 : okOrTemplate (merge_params sv Option.none Option.none Option.none)
          (fun _ : Dict => True) := by
        obtain ⟨mm, hmm⟩ := merge_params_ok hwf Option.none (fun w hw => by cases hw)
        rw [hmm]
        exact trivial
      refine okOrTemplate_bind h1 ?_
      intro m _
      refine okOrTemplate_bind (validate_params_shape ext.ie sv m) ?_
      intro u _
      refine okOrTemplate_bind (render_shape d.templateText m) ?_
      intro s _
      exact trivial
    cases hpl : (do
        let merged ← merge_params sv Option.none Option.none Option.none
        validate_params ext.ie sv merged
        let _ ← render d.templateText merged
        Except.ok () : Except PyErr Unit) with
    | ok u => exact ⟨_, rfl⟩
    | error e =>
      cases e with
      | template m es => exact ⟨_, rfl⟩
      | typeErr m =>
        rw [hpl] at hpipe
        exact hpipe.elim
  · rw [if_neg hemp]
    apply foldlM_ok
    intro acc pn _
    have hpipe : okOrTemplate (do
        let preset_params ← load_preset fs name pn
        let merged ← merge_params sv (some preset_params) Option.none Option.none
        validate_params ext.ie sv merged
        let _ ← render d.templateText merged
        Except.ok () : Except PyErr Unit) (fun _ => True) := by
      refine okOrTemplate_bind (load_preset_shape fs name pn d hdir hex) ?_
      intro pp hpp
      have h1 : okOrTemplate (merge_params sv (some pp) Option.none Option.none)
          (fun _ : Dict => True) := by
        obtain ⟨mm, hmm⟩ := merge_params_ok hwf (some pp) (fun w hw => by cases hw; exact hpp)
        rw [hmm]
        exact trivial
      refine okOrTemplate_bind h1 ?_
      intro m _
      refine okOrTemplate_bind (validate_params_shape ext.ie sv m) ?_
      intro u _
      refine okOrTemplate_bind (render_shape d.templateText m) ?_
      intro s _
      exact trivial
    cases hpl : (do
        let preset_params ← load_preset fs name pn
        let merged ← merge_params sv (some preset_params) Option.none Option.none
        validate_params ext.ie sv merged
        let _ ← render d.templateText merged
        Except.ok () : Except PyErr Unit) with
    | ok u => exact ⟨_, rfl⟩
    | error e =>
      cases e with
      | template m es => exact ⟨_, rfl⟩
      | typeErr m =>
        rw [hpl] at hpipe
        exact hpipe.elim

theorem goldenMerged_shape (fs : Store) (name : String) (d : TemplateDir) (sv : PyVal)
    (presets : List String) (hdir : dlookup fs.templates name = some d)
    (hex : d.examples.all exampleOkb = true) (hwf : schemaWFb sv = true) :
    okOrTemplate (goldenMerged fs name sv presets) (fun _ => True) := by
  unfold goldenMerged
  by_cases hc : presets.contains "default"
  · rw [if_pos hc]
    refine okOrTemplate_bind (load_preset_shape fs name "default" d hdir hex) ?_
    intro pp hpp
    obtain ⟨mm, hmm⟩ := merge_params_ok hwf (some pp) (fun w hw => by cases hw; exact hpp)
    rw [hmm]
    exact trivial
  · rw [if_neg hc]
    obtain ⟨mm, hmm⟩ := merge_params_ok hwf Option.none (fun w hw => by cases hw)
    rw [hmm]
    exact trivial

theorem validate_golden_test_ok (ext : Ext) (fs : Store) (name : String) (d : TemplateDir)
    (hdir : dlookup fs.templates name = some d) (hmd : d.hasTemplateMd = true)
    (hd : dirOkb d = true) :
    ∃ r, validate_golden_test ext fs name = .ok r := by
  have hget : get_template_dir fs name = .ok d := by
    unfold get_template_dir
    rw [hdir]
  obtain ⟨sv, hsv, hwf⟩ := load_schema_ok fs name d hdir hmd hd
  have hex := examples_ok_of_dirOkb hmd hd
  have htm := load_template_ok fs name d hdir hmd
  unfold validate_golden_test
  rw [hget]
  simp only [except_bind_ok]
  cases hg : d.goldenText with
  | none => exact ⟨_, rfl⟩
  | some g =>
    have hpipe : okOrTemplate (do
        let template_text ← load_template fs name
        let schema ← load_schema fs name
        let presets ← list_presets fs name
        let merged ← goldenMerged fs name schema presets
        validate_params ext.ie schema merged
        render template_text merged : Except PyErr String) (fun _ => True) := by
      have h1 : okOrTemplate (load_template fs name) (fun _ : String => True) :=
        load_template_shape fs name
      refine okOrTemplate_bind h1 ?_
      intro t _
      have h2 : okOrTemplate (load_schema fs name) (fun s => schemaWFb s = true) := by
        rw [hsv]
        exact hwf
      refine okOrTemplate_bind h2 ?_
      intro s hwfs
      have h3 : okOrTemplate (list_presets fs name) (fun _ : List String => True) := by
        obtain ⟨ps, hps⟩ := list_presets_ok fs name d hdir
        rw [hps]
        exact trivial
      refine okOrTemplate_bind h3 ?_
      intro ps _
      refine okOrTemplate_bind (goldenMerged_shape fs name d s ps hdir hex hwfs) ?_
      intro merged _
      refine okOrTemplate_bind (validate_params_shape ext.ie s merged) ?_
      intro u _
      exact render_shape t merged
    cases hpl : (do
        let template_text ← load_template fs name
        let schema ← load_schema fs name
        let presets ← list_presets fs name
        let merged ← goldenMerged fs name schema presets
        validate_params ext.ie schema merged
        render template_text merged : Except PyErr String) with
    | ok rendered =>
      by_cases heq : normalize_text rendered = normalize_text g <;>
        simp [heq, except_pure_eq]
    | error e =>
      cases e with
      | template m es => exact ⟨_, rfl⟩
      | typeErr m =>
        rw [hpl] at hpipe
        exact hpipe.elim

theorem validate_template_ok (ext : Ext) (fs : Store) (name : String) (d : TemplateDir)
    (hdir : dlookup fs.templates name = some d) (hmd : d.hasTemplateMd = true)
    (hd : dirOkb d = true) :
    ∃ rs, validate_template ext fs name = .ok rs := by
  obtain ⟨r1, h1⟩ := validate_schema_json_ok ext fs name d hdir
  obtain ⟨rs2, h2⟩ := validate_presets_ok ext fs name d hdir hmd hd
  obtain ⟨r3, h3⟩ := validate_variable_coverage_ok fs name d hdir hmd hd
  obtain ⟨rs4, h4⟩ := validate_template_renders_ok ext fs name d hdir hmd hd
  obtain ⟨r5, h5⟩ := validate_golden_test_ok ext fs name d hdir hmd hd
  unfold validate_template
  simp only [h1, h2, h3, h4, h5, except_bind_ok, except_pure_eq]
  exact ⟨_, rfl⟩

theorem dlookup_of_mem_nodup {α : Type} {l : List (String × α)}
    (hnd : (l.map Prod.fst).Nodup) {k : String} {v : α} (hm : (k, v) ∈ l) :
    dlookup l k = some v := by
  induction l with
  | nil => cases hm
  | cons kv rest ih =>
    simp only [List.map_cons, List.nodup_cons] at hnd
    rcases List.mem_cons.mp hm with heq | hm'
    · rw [← heq]
      simp [dlookup]
    · have hne : ¬(kv.1 = k) := by
        intro he
        apply hnd.1
        rw [he]
        exact List.mem_map.mpr ⟨(k, v), hm', rfl⟩
      obtain ⟨k1, v1⟩ := kv
      simp only [dlookup, if_neg hne]
      exact ih hnd.2 hm'

/-- A listed template: its directory is found in the store, is
discovered, and is benign. -/
def discoveredOk (fs : Store) (x : String × PyVal) : Prop :=
  ∃ d, dlookup fs.templates x.1 = some d ∧ d.hasTemplateMd = true ∧ dirOkb d = true

theorem list_templates_ok (fs : Store) (hnd : (fs.templates.map Prod.fst).Nodup)
    (hok : storeOkb fs = true) :
    ∃ ts, list_templates fs = .ok ts ∧ ∀ x ∈ ts, discoveredOk fs x := by
  unfold list_templates
  suffices h : ∀ (l : List (String × TemplateDir)), (∀ nd ∈ l, nd ∈ fs.templates) →
      ∀ (acc : List (String × PyVal)), (∀ x ∈ acc, discoveredOk fs x) →
      ∃ ts, l.foldlM (listTemplatesStep fs) acc = .ok ts ∧ ∀ x ∈ ts, discoveredOk fs x by
    exact h fs.templates (fun _ hx => hx) [] (by simp)
  intro l
  induction l with
  | nil =>
    intro _ acc hacc
    exact ⟨acc, rfl, hacc⟩
  | cons nd rest ih =>
    intro hsub acc hacc
    have hmem : nd ∈ fs.templates := hsub nd (List.mem_cons_self nd rest)
    have hsubr : ∀ x ∈ rest, x ∈ fs.templates := fun x hx => hsub x (List.mem_cons_of_mem nd hx)
    have hstep : (nd :: rest).foldlM (listTemplatesStep fs) acc =
        (listTemplatesStep fs acc nd >>= fun acc' =>
          rest.foldlM (listTemplatesStep fs) acc') := rfl
    by_cases hmd : nd.2.hasTemplateMd = true
    · have hdir : dlookup fs.templates nd.1 = some nd.2 :=
        dlookup_of_mem_nodup hnd hmem
      have hdok : dirOkb nd.2 = true := List.all_eq_true.mp hok nd hmem
      obtain ⟨sv, hsv, hwf⟩ := load_schema_ok fs nd.1 nd.2 hdir hmd hdok
      obtain ⟨kvs, hkvs⟩ := schemaWFb_dict hwf
      subst hkvs
      have hbody : listTemplatesStep fs acc nd = .ok (acc ++
          [(nd.1, (dlookup kvs "description").getD
            ((dlookup kvs "title").getD (.str "No description")))]) := by
        unfold listTemplatesStep
        simp only [hmd, if_true, hsv, except_bind_ok]
        rfl
      rw [hstep, hbody, except_bind_ok]
      apply ih hsubr
      intro x hx
      rcases List.mem_append.mp hx with hx | hx
      · exact hacc x hx
      · simp only [List.mem_singleton] at hx
        subst hx
        exact ⟨nd.2, hdir, hmd, hdok⟩
    · have hbody : listTemplatesStep fs acc nd = .ok acc := by
        unfold listTemplatesStep
        simp [hmd, except_pure_eq]
      rw [hstep, hbody, except_bind_ok]
      exact ih hsubr acc hacc

/-- C5 counterexample: a store whose first template has a `template.md`
but no `schema.json`.  Discovery raises a `TemplateError` out of the
doctor, and the second (healthy) template is never validated. -/
theorem validate_all_templates_raises :
    validate_all_templates ⟨fun _ _ => [], fun _ => Option.none⟩
      ⟨[("broken", ⟨true, "hello", Option.none, [], Option.none⟩),
        ("good", ⟨true, "hi", some "\x7b\x7d", [], some "hi"⟩)]⟩ =
      .error (.template "Schema file not found: broken" []) := rfl

/-- C5 (amended): every per-check failure inside `validate_template` is
captured as a `ValidationResult`; provided template discovery can load
every discovered template's schema (parsing to a well-formed property
mapping) and every preset document is a mapping or falsy,
`validate_all_templates` propagates no exception.  (Without that
proviso, discovery itself raises — see the counterexample.) -/
theorem validate_all_templates_no_raise (ext : Ext) (fs : Store)
    (hnd : (fs.templates.map Prod.fst).Nodup) (hok : storeOkb fs = true) :
    ∃ report, validate_all_templates ext fs = .ok report := by
  obtain ⟨ts, hts, hdisc⟩ := list_templates_ok fs hnd hok
  unfold validate_all_templates
  rw [hts]
  simp only [except_bind_ok]
  by_cases hemp : ts.isEmpty
  · rw [if_pos hemp]
    exact ⟨_, rfl⟩
  · rw [if_neg hemp]
    apply foldlM_ok
    intro acc x hx
    obtain ⟨d, hdir, hmd, hdok⟩ := hdisc x hx
    obtain ⟨rs, hrs⟩ := validate_template_ok ext fs x.1 d hdir hmd hdok
    refine ⟨acc ++ rs, ?_⟩
    simp [hrs, except_bind_ok, except_pure_eq]

/-- C5 witness: the amended theorem at a concrete healthy store. -/
theorem validate_all_templates_no_raise_witness :
    ∃ report, validate_all_templates ⟨fun _ _ => [], fun _ => Option.none⟩
      ⟨[("good", ⟨true, "hi", some "\x7b\x7d", [], some "hi"⟩)]⟩ = .ok report :=
  validate_all_templates_no_raise ⟨fun _ _ => [], fun _ => Option.none⟩
    ⟨[("good", ⟨true, "hi", some "\x7b\x7d", [], some "hi"⟩)]⟩ (by decide) (by decide)

end Promptkit
